import Mathlib

/-!
# Signing service: device store, chaining engine and boundary handlers

A shallow embedding of the Go packages `persistence`, `domain`, `dto`, `crypto`
and `api` of the signing-service challenge, followed by theorems about them.

Conventions of the embedding

* A Go `map[string]T` is an `AList`: a finite map with unique keys.  The order of
  its entries stands for whatever iteration order the runtime picks.
* A Go slice is a `GoSlice`, which keeps the nil slice apart from an empty one.
* A Go `error` is a `GoError`; a nil error is `none`.
* `int64` is an `Int` that is wrapped back into the 64-bit range after arithmetic.
* `[]byte` is a `List UInt8`; a Go string is a `String`, a text whose bytes are
  its UTF-8 encoding.
* A handler is a function of the registry and of what it reads from the request;
  its result is the response it writes and the registry it leaves.
* Everything the handlers draw from outside the repository (key parsing, hashing,
  the signature primitives, the key generators, the random id, the entropy
  source) is a parameter: the structure `crypto.Lib`, or an argument of the
  handler.
-/

/-! ## Go runtime notions -/

/-- A Go byte slice, as the list of its bytes. -/
abbrev Bytes := List UInt8

/-- The conversion of a Go string to bytes: its UTF-8 encoding. -/
def stringBytes (s : String) : Bytes :=
  s.toUTF8.data.toList

/-- A Go slice value: the nil slice, or a slice with the listed elements. -/
inductive GoSlice (T : Type) where
  | nil : GoSlice T
  | mk (elems : List T) : GoSlice T
deriving DecidableEq, Repr

namespace GoSlice

/-- The elements of a slice; the nil slice has none. -/
def toList {T : Type} : GoSlice T → List T
  | nil => []
  | mk elems => elems

/-- The builtin len. -/
def len {T : Type} (xs : GoSlice T) : Nat :=
  xs.toList.length

/-- Whether the slice is the nil slice. -/
def isNil {T : Type} : GoSlice T → Bool
  | nil => true
  | mk _ => false

end GoSlice

/-- The library function slices.Collect applied to a sequence that yields `xs`:
it appends to a nil slice, so an empty sequence gives the nil slice. -/
def slices_Collect {T : Type} (xs : List T) : GoSlice T :=
  match xs with
  | [] => GoSlice.nil
  | x :: rest => GoSlice.mk (x :: rest)

/-- Go errors that occur in the service. -/
inductive GoError where
  /-- The value persistence.ErrItemExists. -/
  | ErrItemExists : GoError
  /-- The value persistence.ErrItemNotFound. -/
  | ErrItemNotFound : GoError
  /-- The error built by fmt.Errorf("invalid algorithm %s", algorithm). -/
  | invalidAlgorithm (algorithm : String) : GoError
  /-- An error returned by a library outside the repository, with its text. -/
  | external (msg : String) : GoError
deriving DecidableEq, Repr

/-- The method Error() of an error value. -/
def GoError.Error : GoError → String
  | ErrItemExists => "item already exists"
  | ErrItemNotFound => "item not found"
  | invalidAlgorithm algorithm => "invalid algorithm " ++ algorithm
  | external msg => msg

deriving instance DecidableEq for Except

/-- Wrap an integer into the range of int64. -/
def wrapInt64 (x : Int) : Int :=
  (x + 2 ^ 63) % 2 ^ 64 - 2 ^ 63

/-! ## encoding/base64, the standard encoding with padding -/

namespace base64

/-- The standard alphabet. -/
def encodeStd : List Char :=
  "ABCDEFGHIJKLMNOPQRSTUVWXYZabcdefghijklmnopqrstuvwxyz0123456789+/".data

/-- The character of a six-bit value. -/
def sextet (v : Nat) : Char :=
  encodeStd.getD (v % 64) 'A'

/-- The encoding of a byte sequence, three bytes to four characters, the last
group padded with `=`. -/
def encode : Bytes → List Char
  | [] => []
  | [a] =>
    let v := a.toNat * 65536
    [sextet (v / 262144), sextet (v / 4096), '=', '=']
  | [a, b] =>
    let v := a.toNat * 65536 + b.toNat * 256
    [sextet (v / 262144), sextet (v / 4096), sextet (v / 64), '=']
  | a :: b :: c :: rest =>
    let v := a.toNat * 65536 + b.toNat * 256 + c.toNat
    sextet (v / 262144) :: sextet (v / 4096) :: sextet (v / 64) :: sextet v :: encode rest

/-- The call base64.StdEncoding.EncodeToString. -/
def EncodeToString (src : Bytes) : String :=
  String.mk (encode src)

end base64

/-! ## package persistence -/

namespace persistence

/-- The in-memory store: the item table and the table of per-id mutexes.  A
mutex is represented by its state, `true` while some caller holds it.  The
store-wide mutex `mu` is taken and released inside every method, so it is free
whenever no method is under way, and it is not a field.  Between the steps of
calls that overlap, `mu` is held only by a call that waits inside a method; this
is read off the progress of the calls (see `api.System.step`). -/
structure InMemoryStore (T : Type) where
  storage : AList (fun _ : String => T)
  locks : AList (fun _ : String => Bool)

/-- Two stores are equal exactly when their tables hold the same entries, which
can be checked. -/
instance {T : Type} [DecidableEq T] : DecidableEq (InMemoryStore T) := fun a b =>
  decidable_of_iff (a.storage.entries = b.storage.entries ∧ a.locks.entries = b.locks.entries)
    ⟨fun h => by
        cases a
        cases b
        simp only [InMemoryStore.mk.injEq]
        exact ⟨AList.ext h.1, AList.ext h.2⟩,
      fun h => by
        rw [h]
        exact ⟨rfl, rfl⟩⟩

/-- What a call of Lock does: it returns nil holding the mutex, it returns an
error, or it waits because the mutex is held. -/
inductive LockResult (T : Type) where
  | acquired (s : InMemoryStore T) : LockResult T
  | failed (err : GoError) : LockResult T
  | blocked : LockResult T

/-- The constructor NewInMemoryStore: both tables empty. -/
def NewInMemoryStore {T : Type} : InMemoryStore T :=
  { storage := ∅, locks := ∅ }

namespace InMemoryStore

variable {T : Type}

/-- The method Store: refuses an id that is present, otherwise inserts the item
and a fresh, free mutex. -/
def Store (s : InMemoryStore T) (id : String) (item : T) : Option GoError × InMemoryStore T :=
  match s.storage.lookup id with
  | some _ => (some GoError.ErrItemExists, s)
  | none => (none, { storage := s.storage.insert id item, locks := s.locks.insert id false })

/-- The method Set: writes the item under the id, present or not; never fails. -/
def Set (s : InMemoryStore T) (id : String) (item : T) : Option GoError × InMemoryStore T :=
  (none, { s with storage := s.storage.insert id item })

/-- The method Get: a copy of the item, or ErrItemNotFound with a nil pointer. -/
def Get (s : InMemoryStore T) (id : String) : Except GoError T :=
  match s.storage.lookup id with
  | none => Except.error GoError.ErrItemNotFound
  | some item => Except.ok item

/-- The method List: an empty non-nil slice for an empty table, otherwise the
collected values of the table. -/
def List (s : InMemoryStore T) : GoSlice T × Option GoError :=
  if s.storage.entries.length = 0 then
    (GoSlice.mk [], none)
  else
    (slices_Collect (s.storage.entries.map fun e => e.2), none)

/-- The method Lock: ErrItemNotFound without a mutex for the id; otherwise it
takes the mutex.  While another caller holds the mutex the call waits inside
the method, which is the result `blocked`; all that time it keeps `mu`
read-locked. -/
def Lock (s : InMemoryStore T) (id : String) : LockResult T :=
  match s.locks.lookup id with
  | none => LockResult.failed GoError.ErrItemNotFound
  | some true => LockResult.blocked
  | some false => LockResult.acquired { s with locks := s.locks.replace id true }

/-- The method Unlock: ErrItemNotFound without a mutex for the id; otherwise it
releases the mutex.  (Releasing a free mutex aborts the Go program; every call
in the handlers follows a Lock that returned nil.) -/
def Unlock (s : InMemoryStore T) (id : String) : Option GoError × InMemoryStore T :=
  match s.locks.lookup id with
  | none => (some GoError.ErrItemNotFound, s)
  | some _ => (none, { s with locks := s.locks.replace id false })

end InMemoryStore

end persistence

/-! ## package domain -/

namespace domain

/-- The string type SignatureAlgorithm. -/
abbrev SignatureAlgorithm := String

/-- The constant ECCAlgorithm. -/
def ECCAlgorithm : SignatureAlgorithm := "ECC"

/-- The constant RSAAlgorithm. -/
def RSAAlgorithm : SignatureAlgorithm := "RSA"

/-- The device record. -/
structure SignatureDevice where
  ID : String
  Label : String
  Algorithm : SignatureAlgorithm
  PrivateKey : Bytes
  PublicKey : Bytes
  Counter : Int
  LastSignature : String
deriving DecidableEq, Repr

end domain

/-! ## package dto -/

namespace dto

/-- The decoded body of a create request. -/
structure CreateSignatureDeviceRequest where
  Algorithm : String
  Label : String
deriving DecidableEq, Repr

/-- The data of a create response. -/
structure CreateSignatureDeviceResponse where
  ID : String
deriving DecidableEq, Repr

/-- The decoded body of a sign request. -/
structure SignTransactionRequest where
  Data : String
deriving DecidableEq, Repr

/-- The data of a sign response. -/
structure SignTransactionResponse where
  Signature : String
  SignedData : String
deriving DecidableEq, Repr

/-- The data of a get response. -/
structure GetDeviceResponse where
  ID : String
  Label : String
deriving DecidableEq, Repr

end dto

/-! ## package crypto -/

namespace crypto

/-- The primitives the package takes from outside the repository, and the key
generators of the package, whose source is not part of the development.  A
failure carries the text of the error.  The argument `rnd` of a primitive is
the entropy it reads from rand.Reader. -/
structure Lib where
  RSAPrivateKey : Type
  ECPrivateKey : Type
  KeyPair : Type
  ParsePKCS1PrivateKey : Bytes → Except String RSAPrivateKey
  ParseECPrivateKey : Bytes → Except String ECPrivateKey
  Sum256 : Bytes → Bytes
  SignPKCS1v15 : Nat → RSAPrivateKey → Bytes → Except String Bytes
  SignASN1 : Nat → ECPrivateKey → Bytes → Except String Bytes
  RSAGenerate : Nat → Except String KeyPair
  ECCGenerate : Nat → Except String KeyPair
  ToBytes : KeyPair → Except String (Bytes × Bytes)

/-- A result of the outside world as a Go result. -/
def lift {α : Type} : Except String α → Except GoError α
  | Except.error msg => Except.error (GoError.external msg)
  | Except.ok a => Except.ok a

/-- The interface Signer with its two implementations. -/
inductive Signer (c : Lib) where
  | RSASigner (PrivateKey : c.RSAPrivateKey) : Signer c
  | ECDSASigner (PrivateKey : c.ECPrivateKey) : Signer c

/-- The constructor NewRSASigner. -/
def NewRSASigner (c : Lib) (privateKey : Bytes) : Except GoError (Signer c) :=
  match lift (c.ParsePKCS1PrivateKey privateKey) with
  | Except.error err => Except.error err
  | Except.ok key => Except.ok (Signer.RSASigner key)

/-- The constructor NewECDSASigner. -/
def NewECDSASigner (c : Lib) (privateKey : Bytes) : Except GoError (Signer c) :=
  match lift (c.ParseECPrivateKey privateKey) with
  | Except.error err => Except.error err
  | Except.ok key => Except.ok (Signer.ECDSASigner key)

/-- The method Sign of both signers: hash, then the signature primitive. -/
def Signer.Sign {c : Lib} (s : Signer c) (dataToBeSigned : Bytes) (rnd : Nat) :
    Except GoError Bytes :=
  match s with
  | Signer.RSASigner key => lift (c.SignPKCS1v15 rnd key (c.Sum256 dataToBeSigned))
  | Signer.ECDSASigner key => lift (c.SignASN1 rnd key (c.Sum256 dataToBeSigned))

end crypto

/-! ## package api -/

namespace api

open persistence domain

/-- The registry of the server: an in-memory store of devices. -/
abbrev Registry := InMemoryStore SignatureDevice

/-- The value handed to WriteAPIResponse.  The JSON encoder writes every
exported field of it. -/
inductive Data where
  | created (r : dto.CreateSignatureDeviceResponse) : Data
  | signed (r : dto.SignTransactionResponse) : Data
  | device (r : dto.GetDeviceResponse) : Data
  | devices (ds : GoSlice SignatureDevice) : Data
deriving DecidableEq, Repr

/-- What a handler writes: the status code with an error list or with data. -/
inductive HTTPResponse where
  | ErrorResponse (code : Nat) (Errors : List String) : HTTPResponse
  | Response (code : Nat) (data : Data) : HTTPResponse
deriving DecidableEq, Repr

/-- The constant http.StatusOK. -/
def StatusOK : Nat := 200

/-- The constant http.StatusBadRequest. -/
def StatusBadRequest : Nat := 400

/-- The constant http.StatusNotFound. -/
def StatusNotFound : Nat := 404

/-- The function http.StatusText on the codes the handlers use. -/
def StatusText (code : Nat) : String :=
  if code = 200 then "OK"
  else if code = 400 then "Bad Request"
  else if code = 404 then "Not Found"
  else ""

/-- The helper WriteErrorResponse. -/
def WriteErrorResponse (code : Nat) (errors : List String) : HTTPResponse :=
  HTTPResponse.ErrorResponse code errors

/-- The helper WriteAPIResponse. -/
def WriteAPIResponse (code : Nat) (data : Data) : HTTPResponse :=
  HTTPResponse.Response code data

/-- The helper handleStoreErr. -/
def handleStoreErr (err : GoError) : HTTPResponse :=
  if err = GoError.ErrItemNotFound then
    WriteErrorResponse StatusNotFound [StatusText StatusNotFound]
  else
    WriteErrorResponse StatusBadRequest [StatusText StatusBadRequest]

/-- The helper getSignedData: pick the signer by algorithm, then sign. -/
def getSignedData (c : crypto.Lib) (data : String) (privateKey : Bytes)
    (algorithm : SignatureAlgorithm) (rnd : Nat) : Except GoError Bytes :=
  let signer : Except GoError (Except GoError (crypto.Signer c)) :=
    if algorithm = RSAAlgorithm then Except.ok (crypto.NewRSASigner c privateKey)
    else if algorithm = ECCAlgorithm then Except.ok (crypto.NewECDSASigner c privateKey)
    else Except.error (GoError.invalidAlgorithm algorithm)
  match signer with
  | Except.error err => Except.error err
  | Except.ok (Except.error err) => Except.error err
  | Except.ok (Except.ok sg) => sg.Sign (stringBytes data) rnd

/-- The helper getKeys: pick the generator by algorithm, generate, serialise. -/
def getKeys (c : crypto.Lib) (algorithm : SignatureAlgorithm) (rnd : Nat) :
    Except GoError (Bytes × Bytes) :=
  let keyPair : Except GoError (Except GoError c.KeyPair) :=
    if algorithm = RSAAlgorithm then Except.ok (crypto.lift (c.RSAGenerate rnd))
    else if algorithm = ECCAlgorithm then Except.ok (crypto.lift (c.ECCGenerate rnd))
    else Except.error (GoError.invalidAlgorithm algorithm)
  match keyPair with
  | Except.error err => Except.error err
  | Except.ok (Except.error err) => Except.error err
  | Except.ok (Except.ok kp) => crypto.lift (c.ToBytes kp)

/-- The handler CreateSignatureDevice.  `body` is the decoded request body,
`none` when decoding fails; `newID` is the value of uuid.NewString. -/
def CreateSignatureDevice (c : crypto.Lib) (s : Registry)
    (body : Option dto.CreateSignatureDeviceRequest) (newID : String) (rnd : Nat) :
    HTTPResponse × Registry :=
  match body with
  | none => (WriteErrorResponse StatusBadRequest ["invalid payload"], s)
  | some payload =>
    let id := newID
    match getKeys c payload.Algorithm rnd with
    | Except.error err =>
      (WriteErrorResponse StatusBadRequest ["failed to create keys: " ++ err.Error], s)
    | Except.ok (privateKey, publicKey) =>
      match s.Store id
          { ID := id, Label := payload.Label, Algorithm := payload.Algorithm,
            PrivateKey := privateKey, PublicKey := publicKey,
            Counter := 0, LastSignature := "" } with
      | (some err, s1) =>
        (WriteErrorResponse StatusBadRequest ["failed to store device: " ++ err.Error], s1)
      | (none, s1) =>
        (WriteAPIResponse StatusOK (Data.created { ID := id }), s1)

/-- The previous-link component of SignTransaction: the encoded device id at
counter zero, the stored signature otherwise. -/
def previousLink (device : SignatureDevice) : String :=
  if device.Counter = 0 then base64.EncodeToString (stringBytes device.ID)
  else device.LastSignature

/-- The string built by fmt.Sprintf("%d_%s_%s", counter, data, lastSignature). -/
def composeData (device : SignatureDevice) (data : String) : String :=
  Int.repr device.Counter ++ "_" ++ data ++ "_" ++ previousLink device

/-- The device after a signature: counter advanced, signature recorded. -/
def advance (device : SignatureDevice) (signature : String) : SignatureDevice :=
  { device with Counter := wrapInt64 (device.Counter + 1), LastSignature := signature }

/-- The part of SignTransaction that runs with the device mutex held, up to
the response: compose, sign, update the local copy, persist. -/
def signHolding (c : crypto.Lib) (s : Registry) (device : SignatureDevice) (data : String)
    (rnd : Nat) : HTTPResponse × Registry :=
  let dataToSign := composeData device data
  match getSignedData c dataToSign device.PrivateKey device.Algorithm rnd with
  | Except.error err =>
    (WriteErrorResponse StatusBadRequest ["error while signing data: " ++ err.Error], s)
  | Except.ok signed =>
    let signature := base64.EncodeToString signed
    let device1 := advance device signature
    match s.Set device1.ID device1 with
    | (some err, s1) =>
      (WriteErrorResponse StatusBadRequest
        ["error while updating store data: " ++ err.Error], s1)
    | (none, s1) =>
      (WriteAPIResponse StatusOK
        (Data.signed { Signature := signature, SignedData := dataToSign }), s1)

/-- The handler SignTransaction, run from start to end with no other caller in
between.  `id` is the path value, `body` the decoded request body (`none` when
decoding fails).  The result is `none` when the call waits forever for a mutex
that is held. -/
def SignTransaction (c : crypto.Lib) (s : Registry) (id : String)
    (body : Option dto.SignTransactionRequest) (rnd : Nat) : Option (HTTPResponse × Registry) :=
  if id = "" then
    some (WriteErrorResponse StatusBadRequest ["missing device ID"], s)
  else
    match body with
    | none => some (WriteErrorResponse StatusBadRequest ["invalid payload"], s)
    | some payload =>
      if payload.Data = "" then
        some (WriteErrorResponse StatusBadRequest ["missing data to be signed"], s)
      else
        match s.Get id with
        | Except.error err => some (handleStoreErr err, s)
        | Except.ok device =>
          match s.Lock id with
          | LockResult.blocked => none
          | LockResult.failed err => some (handleStoreErr err, s)
          | LockResult.acquired s1 =>
            let r := signHolding c s1 device payload.Data rnd
            some (r.1, (r.2.Unlock id).2)

/-- The handler GetSignatureDevice. -/
def GetSignatureDevice (s : Registry) (id : String) : HTTPResponse :=
  if id = "" then
    WriteErrorResponse StatusBadRequest ["missing device ID"]
  else
    match s.Get id with
    | Except.error err => handleStoreErr err
    | Except.ok device =>
      WriteAPIResponse StatusOK (Data.device { ID := device.ID, Label := device.Label })

/-- The handler ListSignatureDevice. -/
def ListSignatureDevice (s : Registry) : HTTPResponse :=
  match s.List with
  | (_, some err) =>
    WriteErrorResponse StatusBadRequest ["error while listing store data: " ++ err.Error]
  | (devices, none) => WriteAPIResponse StatusOK (Data.devices devices)

/-! ### A run of requests, one after another -/

/-- A request to the server, with everything the handler takes from outside. -/
inductive Request where
  | create (body : Option dto.CreateSignatureDeviceRequest) (newID : String) (rnd : Nat) :
      Request
  | sign (id : String) (body : Option dto.SignTransactionRequest) (rnd : Nat) : Request
  | get (id : String) : Request
  | list : Request
deriving DecidableEq, Repr

/-- Serve one request; `none` when the handler never returns. -/
def serve (c : crypto.Lib) (s : Registry) : Request → Option (HTTPResponse × Registry)
  | Request.create body newID rnd => some (CreateSignatureDevice c s body newID rnd)
  | Request.sign id body rnd => SignTransaction c s id body rnd
  | Request.get id => some (GetSignatureDevice s id, s)
  | Request.list => some (ListSignatureDevice s, s)

/-- Serve a list of requests one after another.  The result is the transcript,
each request with its response, and the registry at the end. -/
def run (c : crypto.Lib) (s : Registry) :
    List Request → Option (List (Request × HTTPResponse) × Registry)
  | [] => some ([], s)
  | q :: rest =>
    match serve c s q with
    | none => none
    | some (r, s1) =>
      match run c s1 rest with
      | none => none
      | some (log, s2) => some ((q, r) :: log, s2)

/-- A successful sign as it appears in a transcript: the data sent and the two
fields of the response. -/
structure SignRecord where
  Data : String
  Signature : String
  SignedData : String
deriving DecidableEq, Repr

/-- The record of a transcript entry when it is a successful sign on `id`. -/
def signRecord (id : String) : Request × HTTPResponse → Option SignRecord
  | (Request.sign id1 (some payload) _, HTTPResponse.Response _ (Data.signed r)) =>
    if id1 = id then
      some { Data := payload.Data, Signature := r.Signature, SignedData := r.SignedData }
    else none
  | _ => none

/-- The successful signs on device `id` in a transcript, in order. -/
def signLog (id : String) (log : List (Request × HTTPResponse)) : List SignRecord :=
  log.filterMap (signRecord id)

/-! ### Notions used to state the theorems -/

/-- What a successful call of SignTransaction has done. -/
def Signed (c : crypto.Lib) (s : Registry) (id data : String) (rnd : Nat)
    (r : HTTPResponse) (s1 : Registry) : Prop :=
  ∃ device signed,
    s.storage.lookup id = some device ∧ s.locks.lookup id = some false ∧
    id ≠ "" ∧ data ≠ "" ∧
    getSignedData c (composeData device data) device.PrivateKey device.Algorithm rnd =
      Except.ok signed ∧
    r = HTTPResponse.Response 200 (Data.signed
          { Signature := base64.EncodeToString signed,
            SignedData := composeData device data }) ∧
    s1 = { storage :=
            s.storage.insert device.ID (advance device (base64.EncodeToString signed)),
           locks := s.locks }

/-- The well-formedness of a registry between two requests: every device is
stored under its own id, has a mutex that is free, has one of the two
algorithms, and has a counter in the range of int64. -/
structure Inv (s : Registry) : Prop where
  id_eq : ∀ id dev, s.storage.lookup id = some dev → dev.ID = id
  lock_free : ∀ id dev, s.storage.lookup id = some dev → s.locks.lookup id = some false
  algorithm : ∀ id dev, s.storage.lookup id = some dev →
    dev.Algorithm = RSAAlgorithm ∨ dev.Algorithm = ECCAlgorithm
  range : ∀ id dev, s.storage.lookup id = some dev →
    -(2 ^ 63) ≤ dev.Counter ∧ dev.Counter < 2 ^ 63

/-- The stored counter of a device; zero, the value a new device starts with,
when there is no such device. -/
def counterOf (s : Registry) (id : String) : Int :=
  match s.storage.lookup id with
  | some dev => dev.Counter
  | none => 0

/-- The stored last signature of a device; empty, the value a new device starts
with, when there is no such device. -/
def lastSignatureOf (s : Registry) (id : String) : String :=
  match s.storage.lookup id with
  | some dev => dev.LastSignature
  | none => ""

/-- The payload of a sign on device `id` with the given counter and last
signature. -/
def payloadOf (id : String) (counter : Int) (last : String) (data : String) : String :=
  Int.repr counter ++ "_" ++ data ++ "_" ++
    (if counter = 0 then base64.EncodeToString (stringBytes id) else last)

/-- A list of sign records is a chain from the counter and last signature
`c`, `l` to `c1`, `l1`: each payload is composed from the counter and last
signature left by the record before it. -/
def Chain (id : String) : Int → String → List SignRecord → Int → String → Prop
  | c, l, [], c1, l1 => c1 = c ∧ l1 = l
  | c, l, e :: rest, c1, l1 =>
    e.SignedData = payloadOf id c l e.Data ∧
      Chain id (wrapInt64 (c + 1)) e.Signature rest c1 l1

/-! ### Calls of SignTransaction that overlap

Each call is cut into steps, a step being one store method or the work between
two of them.  A step is atomic.  The store-wide mutex `mu` is a readers-writer
mutex: Get, Lock and Unlock read-lock it, Set write-locks it.  A method gives
`mu` back when it ends, so between two steps `mu` is held only by a call that
waits inside a method:

* a call that waits inside Lock for the device mutex keeps `mu` read-locked;
* a call that waits inside Set for the readers to leave is the pending writer,
  and a pending writer keeps new readers out.

A call that would have to wait for `mu` itself while holding nothing cannot take
its step; this is the same as the call not having started the method yet. -/

/-- Where a call of SignTransaction stands, with its local variables. -/
inductive Progress where
  /-- Nothing done yet; next: the checks of the request and Store.Get. -/
  | start : Progress
  /-- Get returned the copy `device`; next: Store.Lock. -/
  | fetched (data : String) (device : SignatureDevice) : Progress
  /-- Inside Store.Lock, `mu` read-locked, waiting for the device mutex. -/
  | waitingLock (data : String) (device : SignatureDevice) : Progress
  /-- Lock returned nil; next: compose the payload and sign it. -/
  | holding (data : String) (device : SignatureDevice) : Progress
  /-- The local copy is updated; next: Store.Set. -/
  | updated (device : SignatureDevice) (signature dataToSign : String) : Progress
  /-- Inside Store.Set, waiting to write-lock `mu` until its readers leave. -/
  | waitingSet (device : SignatureDevice) (signature dataToSign : String) : Progress
  /-- The response is written; next: the deferred Store.Unlock. -/
  | answered (r : HTTPResponse) : Progress
  /-- The handler has returned. -/
  | returned (r : HTTPResponse) : Progress
deriving DecidableEq, Repr

/-- One call of SignTransaction in flight. -/
structure Call where
  id : String
  body : Option dto.SignTransactionRequest
  rnd : Nat
  progress : Progress
deriving DecidableEq, Repr

/-- The call with its progress moved on. -/
def Call.move (k : Call) (p : Progress) : Call :=
  { k with progress := p }

/-- Whether the call waits inside Lock and so keeps `mu` read-locked. -/
def Call.readsMu (k : Call) : Bool :=
  match k.progress with
  | Progress.waitingLock _ _ => true
  | _ => false

/-- Whether the call waits inside Set and so is the pending writer of `mu`. -/
def Call.writesMu (k : Call) : Bool :=
  match k.progress with
  | Progress.waitingSet _ _ _ => true
  | _ => false

/-- The end of Store.Set in SignTransaction: write the device, then answer. -/
def Call.persist (s : Registry) (k : Call) (device1 : SignatureDevice)
    (signature dataToSign : String) : Registry × Call :=
  match s.Set device1.ID device1 with
  | (some err, s1) =>
    (s1, k.move (Progress.answered
      (WriteErrorResponse StatusBadRequest
        ["error while updating store data: " ++ err.Error])))
  | (none, s1) =>
    (s1, k.move (Progress.answered
      (WriteAPIResponse StatusOK
        (Data.signed { Signature := signature, SignedData := dataToSign }))))

/-- The next step of a call on the registry as it is now.  `readers` is the
number of calls that keep `mu` read-locked, `writer` says whether some call is
the pending writer of `mu`.  The result is `none` when the call cannot move: it
has returned, it waits for the device mutex, or it waits for `mu`. -/
def Call.step (c : crypto.Lib) (s : Registry) (readers : Nat) (writer : Bool) (k : Call) :
    Option (Registry × Call) :=
  match k.progress with
  | Progress.start =>
    if k.id = "" then
      some (s, k.move (Progress.returned
        (WriteErrorResponse StatusBadRequest ["missing device ID"])))
    else
      match k.body with
      | none =>
        some (s, k.move (Progress.returned
          (WriteErrorResponse StatusBadRequest ["invalid payload"])))
      | some payload =>
        if payload.Data = "" then
          some (s, k.move (Progress.returned
            (WriteErrorResponse StatusBadRequest ["missing data to be signed"])))
        else if writer then none
        else
          match s.Get k.id with
          | Except.error err => some (s, k.move (Progress.returned (handleStoreErr err)))
          | Except.ok device => some (s, k.move (Progress.fetched payload.Data device))
  | Progress.fetched data device =>
    if writer then none
    else
      match s.Lock k.id with
      | LockResult.blocked => some (s, k.move (Progress.waitingLock data device))
      | LockResult.failed err => some (s, k.move (Progress.returned (handleStoreErr err)))
      | LockResult.acquired s1 => some (s1, k.move (Progress.holding data device))
  | Progress.waitingLock data device =>
    match s.Lock k.id with
    | LockResult.acquired s1 => some (s1, k.move (Progress.holding data device))
    | _ => none
  | Progress.holding data device =>
    let dataToSign := composeData device data
    match getSignedData c dataToSign device.PrivateKey device.Algorithm k.rnd with
    | Except.error err =>
      some (s, k.move (Progress.answered
        (WriteErrorResponse StatusBadRequest ["error while signing data: " ++ err.Error])))
    | Except.ok signed =>
      let signature := base64.EncodeToString signed
      some (s, k.move (Progress.updated (advance device signature) signature dataToSign))
  | Progress.updated device1 signature dataToSign =>
    if writer then none
    else if readers = 0 then some (k.persist s device1 signature dataToSign)
    else some (s, k.move (Progress.waitingSet device1 signature dataToSign))
  | Progress.waitingSet device1 signature dataToSign =>
    if readers = 0 then some (k.persist s device1 signature dataToSign)
    else none
  | Progress.answered r =>
    if writer then none
    else some ((s.Unlock k.id).2, k.move (Progress.returned r))
  | Progress.returned _ => none

/-- The response of a call that has returned. -/
def Call.response (k : Call) : Option HTTPResponse :=
  match k.progress with
  | Progress.returned r => some r
  | _ => none

/-- A lone call run until it returns, for at most `fuel` steps.  No other call
holds `mu`. -/
def Call.finish (c : crypto.Lib) (s : Registry) (k : Call) :
    Nat → Option (HTTPResponse × Registry)
  | 0 => none
  | fuel + 1 =>
    match k.progress with
    | Progress.returned r => some (r, s)
    | _ =>
      match k.step c s 0 false with
      | none => none
      | some (s1, k1) => Call.finish c s1 k1 fuel

/-- The registry together with the calls in flight. -/
structure System where
  store : Registry
  calls : List Call

/-- The number of calls that keep `mu` read-locked. -/
def System.readers (sys : System) : Nat :=
  (sys.calls.filter Call.readsMu).length

/-- Whether some call is the pending writer of `mu`. -/
def System.writer (sys : System) : Bool :=
  sys.calls.any Call.writesMu

/-- The scheduler lets call number `i` take its next step. -/
def System.step (c : crypto.Lib) (sys : System) (i : Nat) : Option System :=
  match sys.calls.get? i with
  | none => none
  | some k =>
    match k.step c sys.store sys.readers sys.writer with
    | none => none
    | some (s1, k1) => some { store := s1, calls := sys.calls.set i k1 }

/-- Run a schedule: the list of the calls that move, in order. -/
def System.exec (c : crypto.Lib) (sys : System) : List Nat → Option System
  | [] => some sys
  | i :: rest =>
    match sys.step c i with
    | none => none
    | some sys1 => System.exec c sys1 rest

end api

/-! ## A stand-in for the outside libraries

Used only to run the handlers on concrete inputs; no general theorem depends
on it. -/

namespace sample

/-- A stand-in library: a key is its own serialisation, the digest is the
length and the byte sum of the message, a signature is the key followed by the
digest. -/
def lib : crypto.Lib where
  RSAPrivateKey := Bytes
  ECPrivateKey := Bytes
  KeyPair := Bytes × Bytes
  ParsePKCS1PrivateKey := fun b =>
    if b = [] then Except.error "asn1: syntax error" else Except.ok b
  ParseECPrivateKey := fun b =>
    if b = [] then Except.error "asn1: syntax error" else Except.ok b
  Sum256 := fun m => [UInt8.ofNat m.length, UInt8.ofNat (m.map UInt8.toNat).sum]
  SignPKCS1v15 := fun _ key digest => Except.ok (key ++ digest)
  SignASN1 := fun rnd key digest => Except.ok (key ++ digest ++ [UInt8.ofNat rnd])
  RSAGenerate := fun rnd => Except.ok ([1, UInt8.ofNat rnd], [2, UInt8.ofNat rnd])
  ECCGenerate := fun rnd => Except.ok ([3, UInt8.ofNat rnd], [4, UInt8.ofNat rnd])
  ToBytes := fun kp => Except.ok kp

/-- The request that creates device X. -/
def createX : api.Request :=
  api.Request.create (some { Algorithm := "ECC", Label := "test" }) "X" 7

/-- The first sign of the example scenario. -/
def signHello : api.Request :=
  api.Request.sign "X" (some { Data := "hello" }) 1

/-- The second sign of the example scenario. -/
def signWorld : api.Request :=
  api.Request.sign "X" (some { Data := "world" }) 2

/-- The registry after device X is created in an empty registry. -/
def registry1 : api.Registry :=
  (api.CreateSignatureDevice lib persistence.NewInMemoryStore
    (some { Algorithm := "ECC", Label := "test" }) "X" 7).2

/-- The device X as created. -/
def deviceX : domain.SignatureDevice :=
  { ID := "X", Label := "test", Algorithm := "ECC", PrivateKey := [3, 7],
    PublicKey := [4, 7], Counter := 0, LastSignature := "" }

/-- The registry after the first sign of the example scenario. -/
def registry2 : api.Registry :=
  { storage := registry1.storage.insert "X"
      { deviceX with Counter := 1, LastSignature := "AwcMFAE=" },
    locks := registry1.locks }

/-- A sign request on device X that the stand-in library always signs. -/
def signA : api.Request :=
  api.Request.sign "X" (some { Data := "a" }) 0

/-- The creation of device X followed by `k` sign requests on it. -/
def longRun (k : Nat) : List api.Request :=
  createX :: List.replicate k signA

/-- A registry whose only device has a private key that does not parse. -/
def registryBadKey : api.Registry :=
  (persistence.NewInMemoryStore.Store "X" { deviceX with PrivateKey := [] }).2

/-- The registry `registry1` with other bytes as the private key of X. -/
def registryOtherKey : api.Registry :=
  { registry1 with
    storage := registry1.storage.insert "X" { deviceX with PrivateKey := [9, 9] } }

/-- The registry after both signs of the example scenario. -/
def registry3 : api.Registry :=
  { storage := registry2.storage.insert "X"
      { deviceX with Counter := 2, LastSignature := "AwcQiAI=" },
    locks := registry1.locks }

/-- The transcript of the creation of X and the first sign. -/
def log2 : List (api.Request × api.HTTPResponse) :=
  [(createX, api.HTTPResponse.Response 200 (api.Data.created { ID := "X" })),
   (signHello, api.HTTPResponse.Response 200
      (api.Data.signed { Signature := "AwcMFAE=", SignedData := "0_hello_WA==" }))]

/-- A continuation of the scenario: a sign without data, a sign on an unknown
device, then the second sign. -/
def more : List api.Request :=
  [api.Request.sign "X" (some { Data := "" }) 5,
   api.Request.sign "Y" (some { Data := "x" }) 0,
   signWorld]

/-- The transcript of the continuation. -/
def logMore : List (api.Request × api.HTTPResponse) :=
  [(api.Request.sign "X" (some { Data := "" }) 5,
      api.HTTPResponse.ErrorResponse 400 ["missing data to be signed"]),
   (api.Request.sign "Y" (some { Data := "x" }) 0,
      api.HTTPResponse.ErrorResponse 404 ["Not Found"]),
   (signWorld, api.HTTPResponse.Response 200
      (api.Data.signed { Signature := "AwcQiAI=", SignedData := "1_world_AwcMFAE=" }))]

/-- The transcript of the whole example scenario. -/
def log3 : List (api.Request × api.HTTPResponse) :=
  log2 ++ [(signWorld, api.HTTPResponse.Response 200
      (api.Data.signed { Signature := "AwcQiAI=", SignedData := "1_world_AwcMFAE=" }))]

/-- Two calls of SignTransaction on device X, not yet started. -/
def system0 : api.System :=
  { store := registry1,
    calls := [{ id := "X", body := some { Data := "a" }, rnd := 0,
                progress := api.Progress.start },
              { id := "X", body := some { Data := "b" }, rnd := 0,
                progress := api.Progress.start }] }

/-- A schedule in which both calls read the device before either takes the
mutex: call 0 does Get, call 1 does Get, call 0 does Lock, sign, Set and
Unlock, then call 1 does Lock, sign, Set and Unlock.  No two store methods
overlap in it. -/
def schedule : List Nat :=
  [0, 1, 0, 0, 0, 0, 1, 1, 1, 1]

/-- A schedule in which call 0 runs from start to end before call 1 starts. -/
def scheduleInTurn : List Nat :=
  [0, 0, 0, 0, 0, 1, 1, 1, 1, 1]

/-- A schedule in which call 1 enters Lock while call 0 holds the mutex: call 0
does Get, call 1 does Get, call 0 does Lock, call 1 enters Lock and waits,
call 0 signs and enters Set. -/
def scheduleWaiting : List Nat :=
  [0, 1, 0, 1, 0, 0]

/-- What a schedule leads to from `system0`: the responses of the two calls and
the stored counter of device X; `none` when the schedule cannot be run. -/
def outcomeOf (sched : List Nat) : Option (List (Option api.HTTPResponse) × Int) :=
  (api.System.exec lib system0 sched).map fun sys =>
    (sys.calls.map api.Call.response, api.counterOf sys.store "X")

/-- What the schedule `schedule` leads to. -/
def outcome : Option (List (Option api.HTTPResponse) × Int) :=
  outcomeOf schedule

/-- Where the schedule `scheduleWaiting` leaves the two calls: for each whether
it waits inside Set, whether it waits inside Lock, and whether it can take a
step. -/
def waiting : Option (List (Bool × Bool × Bool)) :=
  (api.System.exec lib system0 scheduleWaiting).map fun sys =>
    [(0, sys.calls.get? 0), (1, sys.calls.get? 1)].map fun p =>
      ((p.2.map api.Call.writesMu).getD false, (p.2.map api.Call.readsMu).getD false,
        (sys.step lib p.1).isSome)

/-- Three calls of SignTransaction on device X, not yet started. -/
def system3 : api.System :=
  { store := registry1,
    calls := [{ id := "X", body := some { Data := "a" }, rnd := 0,
                progress := api.Progress.start },
              { id := "X", body := some { Data := "b" }, rnd := 0,
                progress := api.Progress.start },
              { id := "X", body := some { Data := "c" }, rnd := 0,
                progress := api.Progress.start }] }

/-- A schedule for three calls: call 2 does Get first, then call 0 and call 1
run in turn from start to end. -/
def scheduleTwoDone : List Nat :=
  [2, 0, 0, 0, 0, 0, 1, 1, 1, 1, 1]

/-- The schedule `scheduleTwoDone` followed by the rest of call 2: Lock, sign,
Set and Unlock. -/
def scheduleThreeDone : List Nat :=
  scheduleTwoDone ++ [2, 2, 2, 2]

/-- What a schedule leads to from `system3`: the responses of the calls and the
stored counter of device X. -/
def outcomeOf3 (sched : List Nat) : Option (List (Option api.HTTPResponse) × Int) :=
  (api.System.exec lib system3 sched).map fun sys =>
    (sys.calls.map api.Call.response, api.counterOf sys.store "X")

/-- The store of the duplicate-item test after its first Store. -/
def store1 : persistence.InMemoryStore Nat :=
  (persistence.NewInMemoryStore.Store "some id" 1).2

/-- The store of the list test after both of its Store calls. -/
def store2 : persistence.InMemoryStore Nat :=
  (store1.Store "some other id" 2).2

end sample

/-! # Theorems -/

/-! ## Maps -/

namespace GoMap

variable {β : Type}

theorem kreplace_cons (a : String) (b : β) (k : String) (v : β)
    (rest : List (Sigma fun _ : String => β)) :
    List.kreplace a b (⟨k, v⟩ :: rest) =
      if a = k then ⟨a, b⟩ :: rest else ⟨k, v⟩ :: List.kreplace a b rest := by
  unfold List.kreplace
  by_cases h : a = k
  · simp [List.lookmap_cons_some, h]
  · simp [List.lookmap_cons_none, h]

theorem dlookup_cons (a k : String) (v : β) (rest : List (Sigma fun _ : String => β)) :
    List.dlookup a (⟨k, v⟩ :: rest) = if a = k then some v else List.dlookup a rest := by
  by_cases h : a = k
  · subst h
    simp [List.dlookup_cons_eq]
  · rw [if_neg h]
    exact List.dlookup_cons_ne rest ⟨k, v⟩ h

theorem dlookup_kreplace_ne (a a1 : String) (b : β) (h : a1 ≠ a) :
    ∀ l : List (Sigma fun _ : String => β),
      List.dlookup a1 (List.kreplace a b l) = List.dlookup a1 l
  | [] => by simp [List.kreplace]
  | ⟨k, v⟩ :: rest => by
    rw [kreplace_cons]
    by_cases hk : a = k
    · subst hk
      rw [if_pos rfl, dlookup_cons, dlookup_cons, if_neg h, if_neg h]
    · rw [if_neg hk, dlookup_cons, dlookup_cons, dlookup_kreplace_ne a a1 b h rest]

theorem dlookup_kreplace_self (a : String) (b : β) :
    ∀ l : List (Sigma fun _ : String => β), a ∈ l.keys →
      List.dlookup a (List.kreplace a b l) = some b
  | [], h => by simp at h
  | ⟨k, v⟩ :: rest, h => by
    rw [kreplace_cons]
    by_cases hk : a = k
    · subst hk
      rw [if_pos rfl, dlookup_cons, if_pos rfl]
    · rw [if_neg hk, dlookup_cons, if_neg hk]
      apply dlookup_kreplace_self a b rest
      simpa [List.keys, hk] using h

theorem kreplace_kreplace_cancel (a : String) (b b1 : β) :
    ∀ l : List (Sigma fun _ : String => β), List.dlookup a l = some b →
      List.kreplace a b (List.kreplace a b1 l) = l
  | [], h => by simp at h
  | ⟨k, v⟩ :: rest, h => by
    rw [dlookup_cons] at h
    rw [kreplace_cons]
    by_cases hk : a = k
    · subst hk
      rw [if_pos rfl] at h
      rw [if_pos rfl, kreplace_cons, if_pos rfl]
      simp only [Option.some.injEq] at h
      rw [h]
    · rw [if_neg hk] at h
      rw [if_neg hk, kreplace_cons, if_neg hk, kreplace_kreplace_cancel a b b1 rest h]

theorem lookup_replace_ne (l : AList fun _ : String => β) (a a1 : String) (b : β)
    (h : a1 ≠ a) : (l.replace a b).lookup a1 = l.lookup a1 :=
  dlookup_kreplace_ne a a1 b h l.entries

theorem lookup_replace_self (l : AList fun _ : String => β) (a : String) (b : β)
    (h : a ∈ l) : (l.replace a b).lookup a = some b :=
  dlookup_kreplace_self a b l.entries h

theorem replace_replace_cancel (l : AList fun _ : String => β) (a : String) (b b1 : β)
    (h : l.lookup a = some b) : (l.replace a b1).replace a b = l :=
  AList.ext (kreplace_kreplace_cancel a b b1 l.entries h)

theorem mem_of_lookup {l : AList fun _ : String => β} {a : String} {b : β}
    (h : l.lookup a = some b) : a ∈ l := by
  rw [← AList.lookup_isSome, h]; rfl

end GoMap

/-! ## The store -/

namespace persistence

namespace InMemoryStore

variable {T : Type}

theorem Get_eq_ok {s : InMemoryStore T} {id : String} {item : T} :
    s.Get id = Except.ok item ↔ s.storage.lookup id = some item := by
  unfold Get
  cases h : s.storage.lookup id <;> simp

theorem Get_eq_error {s : InMemoryStore T} {id : String} {err : GoError} :
    s.Get id = Except.error err ↔ id ∉ s.storage ∧ err = GoError.ErrItemNotFound := by
  unfold Get
  cases h : s.storage.lookup id with
  | none =>
    have hn : id ∉ s.storage := AList.lookup_eq_none.mp h
    simp [hn, eq_comm]
  | some item =>
    have hm : id ∈ s.storage := by
      rw [← AList.lookup_isSome, h]; rfl
    simp [hm]

theorem List_toList (s : InMemoryStore T) :
    s.List.1.toList = s.storage.entries.map fun e => e.2 := by
  unfold List
  cases h : s.storage.entries with
  | nil => simp [GoSlice.toList]
  | cons e rest => simp [slices_Collect, GoSlice.toList]

theorem List_isNil (s : InMemoryStore T) : s.List.1.isNil = false := by
  unfold List
  cases h : s.storage.entries with
  | nil => simp [GoSlice.isNil]
  | cons e rest => simp [slices_Collect, GoSlice.isNil]

theorem List_error (s : InMemoryStore T) : s.List.2 = none := by
  unfold List
  split <;> rfl

theorem Get_entry (s : InMemoryStore T) (e : Sigma fun _ : String => T)
    (he : e ∈ s.storage.entries) : s.Get e.1 = Except.ok e.2 := by
  rw [Get_eq_ok]
  exact AList.mem_lookup_iff.mpr he

/-- C6.  Store(id, item) returns ErrItemExists exactly when the id is present,
and then the store is unchanged; when the id is absent it returns no error,
Get(id) yields the item afterwards, and every other id reads as before. -/
theorem Store_spec (s : InMemoryStore T) (id : String) (item : T) :
    ((s.Store id item).1 = some GoError.ErrItemExists ↔ id ∈ s.storage) ∧
    (id ∈ s.storage → (s.Store id item).2 = s) ∧
    (id ∉ s.storage →
      (s.Store id item).1 = none ∧
      (s.Store id item).2.Get id = Except.ok item ∧
      ∀ other, other ≠ id → (s.Store id item).2.Get other = s.Get other) := by
  cases h : s.storage.lookup id with
  | none =>
    have hn : id ∉ s.storage := AList.lookup_eq_none.mp h
    refine ⟨?_, fun hm => absurd hm hn, fun _ => ⟨?_, ?_, ?_⟩⟩
    · simp [Store, h, hn]
    · simp [Store, h]
    · simp [Store, h, Get, AList.lookup_insert]
    · intro other ho
      simp [Store, h, Get, AList.lookup_insert_ne ho]
  | some old =>
    have hm : id ∈ s.storage := by
      rw [← AList.lookup_isSome, h]; rfl
    refine ⟨?_, fun _ => ?_, fun hn => absurd hm hn⟩
    · simp [Store, h, hm]
    · simp [Store, h]

/-- C8.  List returns no error and a non-nil slice, the empty slice on an empty
table.  Its elements are the stored items, one for each stored id: reading the
ids of the table one by one gives exactly its elements.  Hence, in whichever
order the items come, there are as many as there are stored ids, every stored
item is among them and nothing else is. -/
theorem List_spec (s : InMemoryStore T) :
    s.List.2 = none ∧
    s.List.1.isNil = false ∧
    (s.storage.keys = [] → s.List.1 = GoSlice.mk []) ∧
    s.List.1.toList.map Except.ok = s.storage.keys.map s.Get ∧
    ∀ items, List.Perm items s.List.1.toList →
      items.length = s.storage.keys.length ∧
      (∀ id item, s.Get id = Except.ok item → item ∈ items) ∧
      (∀ item, item ∈ items → ∃ id, s.Get id = Except.ok item) := by
  refine ⟨List_error s, List_isNil s, ?_, ?_, ?_⟩
  · intro h
    have he : s.storage.entries = [] := by
      cases hent : s.storage.entries with
      | nil => rfl
      | cons e rest => simp [AList.keys, List.keys, hent] at h
    simp [List, he]
  · rw [List_toList, AList.keys, List.keys, List.map_map, List.map_map]
    apply List.map_congr_left
    intro e he
    exact (Get_entry s e he).symm
  · intro items hperm
    refine ⟨?_, ?_, ?_⟩
    · rw [hperm.length_eq]
      simp [List_toList, AList.keys, List.keys]
    · intro id item h
      rw [hperm.mem_iff, List_toList]
      have hm : Sigma.mk id item ∈ s.storage.entries :=
        AList.mem_lookup_iff.mp (Get_eq_ok.mp h)
      exact List.mem_map.mpr ⟨⟨id, item⟩, hm, rfl⟩
    · intro item h
      rw [hperm.mem_iff, List_toList] at h
      obtain ⟨e, he, rfl⟩ := List.mem_map.mp h
      exact ⟨e.1, Get_entry s e he⟩

end InMemoryStore

end persistence

/-! ## The handlers, one call at a time -/

namespace api

open persistence domain

theorem handleStoreErr_notFound :
    handleStoreErr GoError.ErrItemNotFound = HTTPResponse.ErrorResponse 404 ["Not Found"] := by
  decide

theorem handleStoreErr_isError (err : GoError) :
    ∃ code errs, handleStoreErr err = HTTPResponse.ErrorResponse code errs := by
  unfold handleStoreErr WriteErrorResponse
  split <;> exact ⟨_, _, rfl⟩

theorem getSignedData_supported (c : crypto.Lib) (data : String) (key : Bytes)
    (algorithm : SignatureAlgorithm) (rnd : Nat)
    (h : algorithm = RSAAlgorithm ∨ algorithm = ECCAlgorithm) (a : String) :
    getSignedData c data key algorithm rnd ≠ Except.error (GoError.invalidAlgorithm a) := by
  have hlift : ∀ {α : Type} (x : Except String α),
      crypto.lift x ≠ Except.error (GoError.invalidAlgorithm a) := by
    intro α x
    cases x <;> simp [crypto.lift]
  have hsign : ∀ sg : crypto.Signer c,
      sg.Sign (stringBytes data) rnd ≠ Except.error (GoError.invalidAlgorithm a) := by
    intro sg
    cases sg <;> exact hlift _
  have hrsa : ∀ x : Except GoError (crypto.Signer c),
      (∀ e, x = Except.error e → e ≠ GoError.invalidAlgorithm a) →
      (match (Except.ok x : Except GoError (Except GoError (crypto.Signer c))) with
        | Except.error err => Except.error err
        | Except.ok (Except.error err) => Except.error err
        | Except.ok (Except.ok sg) => sg.Sign (stringBytes data) rnd) ≠
        Except.error (GoError.invalidAlgorithm a) := by
    intro x hx
    cases x with
    | error e =>
      intro hh
      exact hx e rfl (by simpa using hh)
    | ok sg => exact hsign sg
  unfold getSignedData
  rcases h with h | h
  · subst h
    simp only [if_true]
    apply hrsa
    intro e he
    unfold crypto.NewRSASigner at he
    cases hp : c.ParsePKCS1PrivateKey key <;> simp [hp, crypto.lift] at he
    subst he
    simp
  · subst h
    have hne : ¬ (ECCAlgorithm = RSAAlgorithm) := by decide
    simp only [if_neg hne, if_true]
    apply hrsa
    intro e he
    unfold crypto.NewECDSASigner at he
    cases hp : c.ParseECPrivateKey key <;> simp [hp, crypto.lift] at he
    subst he
    simp

theorem getKeys_invalid (c : crypto.Lib) (algorithm : SignatureAlgorithm) (rnd : Nat)
    (h1 : algorithm ≠ RSAAlgorithm) (h2 : algorithm ≠ ECCAlgorithm) :
    getKeys c algorithm rnd = Except.error (GoError.invalidAlgorithm algorithm) := by
  unfold getKeys
  simp [h1, h2]

theorem getKeys_ok {c : crypto.Lib} {algorithm : SignatureAlgorithm} {rnd : Nat}
    {keys : Bytes × Bytes} (h : getKeys c algorithm rnd = Except.ok keys) :
    algorithm = RSAAlgorithm ∨ algorithm = ECCAlgorithm := by
  by_contra hne
  push_neg at hne
  rw [getKeys_invalid c algorithm rnd hne.1 hne.2] at h
  cases h

theorem signHolding_error {c : crypto.Lib} (s : Registry) {device : SignatureDevice}
    {data : String} {rnd : Nat} {err : GoError}
    (h : getSignedData c (composeData device data) device.PrivateKey device.Algorithm rnd =
      Except.error err) :
    signHolding c s device data rnd =
      (HTTPResponse.ErrorResponse 400 ["error while signing data: " ++ err.Error], s) := by
  unfold signHolding
  simp only [h]
  rfl

theorem signHolding_ok {c : crypto.Lib} (s : Registry) {device : SignatureDevice}
    {data : String} {rnd : Nat} {signed : Bytes}
    (h : getSignedData c (composeData device data) device.PrivateKey device.Algorithm rnd =
      Except.ok signed) :
    signHolding c s device data rnd =
      (HTTPResponse.Response 200 (Data.signed
          { Signature := base64.EncodeToString signed,
            SignedData := composeData device data }),
        { s with storage :=
            s.storage.insert device.ID (advance device (base64.EncodeToString signed)) }) := by
  unfold signHolding
  simp only [h]
  rfl

theorem SignTransaction_cases {c : crypto.Lib} {s : Registry} {id : String}
    {body : Option dto.SignTransactionRequest} {rnd : Nat} {r : HTTPResponse} {s1 : Registry}
    (h : SignTransaction c s id body rnd = some (r, s1)) :
    (∃ code errs, r = HTTPResponse.ErrorResponse code errs ∧ s1 = s) ∨
    (∃ payload, body = some payload ∧ Signed c s id payload.Data rnd r s1) := by
  unfold SignTransaction at h
  by_cases hid : id = ""
  · rw [if_pos hid] at h
    simp only [Option.some.injEq, Prod.mk.injEq] at h
    exact Or.inl ⟨_, _, h.1.symm, h.2.symm⟩
  rw [if_neg hid] at h
  cases body with
  | none =>
    simp only [Option.some.injEq, Prod.mk.injEq] at h
    exact Or.inl ⟨_, _, h.1.symm, h.2.symm⟩
  | some payload =>
    simp only at h
    by_cases hd : payload.Data = ""
    · rw [if_pos hd] at h
      simp only [Option.some.injEq, Prod.mk.injEq] at h
      exact Or.inl ⟨_, _, h.1.symm, h.2.symm⟩
    rw [if_neg hd] at h
    cases hg : s.Get id with
    | error err =>
      rw [hg] at h
      simp only [Option.some.injEq, Prod.mk.injEq] at h
      obtain ⟨code, errs, he⟩ := handleStoreErr_isError err
      exact Or.inl ⟨code, errs, by rw [← h.1, he], h.2.symm⟩
    | ok device =>
      rw [hg] at h
      simp only at h
      have hdev : s.storage.lookup id = some device := InMemoryStore.Get_eq_ok.mp hg
      cases hl : s.locks.lookup id with
      | none =>
        simp only [InMemoryStore.Lock, hl, Option.some.injEq, Prod.mk.injEq] at h
        obtain ⟨code, errs, he⟩ := handleStoreErr_isError GoError.ErrItemNotFound
        exact Or.inl ⟨code, errs, by rw [← h.1, he], h.2.symm⟩
      | some held =>
        cases held with
        | true => simp [InMemoryStore.Lock, hl] at h
        | false =>
          simp only [InMemoryStore.Lock, hl, Option.some.injEq, Prod.mk.injEq] at h
          have hmem : id ∈ s.locks := GoMap.mem_of_lookup hl
          cases hs : getSignedData c (composeData device payload.Data) device.PrivateKey
              device.Algorithm rnd with
          | error err =>
            rw [signHolding_error _ hs] at h
            simp only [InMemoryStore.Unlock, GoMap.lookup_replace_self _ _ _ hmem,
              GoMap.replace_replace_cancel _ _ _ _ hl] at h
            exact Or.inl ⟨_, _, h.1.symm, h.2.symm⟩
          | ok signed =>
            rw [signHolding_ok _ hs] at h
            simp only [InMemoryStore.Unlock, GoMap.lookup_replace_self _ _ _ hmem,
              GoMap.replace_replace_cancel _ _ _ _ hl] at h
            exact Or.inr ⟨payload, rfl, device, signed, hdev, hl, hid, hd, hs, h.1.symm,
              h.2.symm⟩

end api

/-! ## Runs of requests -/

namespace api

open persistence domain

theorem wrapInt64_add (a b : Int) : wrapInt64 (wrapInt64 a + b) = wrapInt64 (a + b) := by
  unfold wrapInt64
  omega

theorem wrapInt64_range (a : Int) : -(2 ^ 63) ≤ wrapInt64 a ∧ wrapInt64 a < 2 ^ 63 := by
  unfold wrapInt64
  omega

theorem wrapInt64_of_range {a : Int} (h1 : -(2 ^ 63) ≤ a) (h2 : a < 2 ^ 63) :
    wrapInt64 a = a := by
  unfold wrapInt64
  omega

theorem Inv_new : Inv (NewInMemoryStore : Registry) := by
  constructor <;> intro id dev h <;> simp [NewInMemoryStore] at h

theorem composeData_eq (device : SignatureDevice) (data : String) :
    composeData device data =
      payloadOf device.ID device.Counter device.LastSignature data := by
  unfold composeData payloadOf previousLink
  rfl

theorem counterOf_lookup {s : Registry} {id : String} {dev : SignatureDevice}
    (h : s.storage.lookup id = some dev) : counterOf s id = dev.Counter := by
  simp [counterOf, h]

theorem lastSignatureOf_lookup {s : Registry} {id : String} {dev : SignatureDevice}
    (h : s.storage.lookup id = some dev) : lastSignatureOf s id = dev.LastSignature := by
  simp [lastSignatureOf, h]

theorem CreateSignatureDevice_cases (c : crypto.Lib) (s : Registry)
    (body : Option dto.CreateSignatureDeviceRequest) (newID : String) (rnd : Nat) :
    (∃ code errs,
      CreateSignatureDevice c s body newID rnd = (HTTPResponse.ErrorResponse code errs, s)) ∨
    (∃ payload privateKey publicKey,
      body = some payload ∧
      (payload.Algorithm = RSAAlgorithm ∨ payload.Algorithm = ECCAlgorithm) ∧
      s.storage.lookup newID = none ∧
      CreateSignatureDevice c s body newID rnd =
        (HTTPResponse.Response 200 (Data.created { ID := newID }),
          { storage := s.storage.insert newID
              { ID := newID, Label := payload.Label, Algorithm := payload.Algorithm,
                PrivateKey := privateKey, PublicKey := publicKey,
                Counter := 0, LastSignature := "" },
            locks := s.locks.insert newID false })) := by
  unfold CreateSignatureDevice
  cases body with
  | none => exact Or.inl ⟨_, _, rfl⟩
  | some payload =>
    simp only
    cases hk : getKeys c payload.Algorithm rnd with
    | error err => exact Or.inl ⟨_, _, rfl⟩
    | ok keys =>
      obtain ⟨privateKey, publicKey⟩ := keys
      simp only
      cases hl : s.storage.lookup newID with
      | some old =>
        simp only [InMemoryStore.Store, hl]
        exact Or.inl ⟨_, _, rfl⟩
      | none =>
        simp only [InMemoryStore.Store, hl]
        exact Or.inr ⟨payload, privateKey, publicKey, rfl, getKeys_ok hk, trivial, rfl⟩

theorem lookup_insert_eq (st : AList fun _ : String => SignatureDevice) (k id : String)
    (d : SignatureDevice) :
    (st.insert k d).lookup id = if id = k then some d else st.lookup id := by
  by_cases h : id = k
  · subst h
    simp [AList.lookup_insert]
  · rw [if_neg h, AList.lookup_insert_ne h]

theorem Inv_insert {s : Registry} (hs : Inv s) (k : String) (d : SignatureDevice)
    (locks : AList fun _ : String => Bool)
    (hid : d.ID = k)
    (hlock : ∀ id, id = k ∨ (∃ dev, s.storage.lookup id = some dev) →
      locks.lookup id = some false)
    (halg : d.Algorithm = RSAAlgorithm ∨ d.Algorithm = ECCAlgorithm)
    (hrange : -(2 ^ 63) ≤ d.Counter ∧ d.Counter < 2 ^ 63) :
    Inv { storage := s.storage.insert k d, locks := locks } := by
  constructor
  · intro id dev h
    simp only [lookup_insert_eq] at h
    by_cases hk : id = k
    · rw [if_pos hk] at h
      cases h
      rw [hk]; exact hid
    · rw [if_neg hk] at h
      exact hs.id_eq id dev h
  · intro id dev h
    simp only [lookup_insert_eq] at h
    by_cases hk : id = k
    · exact hlock id (Or.inl hk)
    · rw [if_neg hk] at h
      exact hlock id (Or.inr ⟨dev, h⟩)
  · intro id dev h
    simp only [lookup_insert_eq] at h
    by_cases hk : id = k
    · rw [if_pos hk] at h
      cases h
      exact halg
    · rw [if_neg hk] at h
      exact hs.algorithm id dev h
  · intro id dev h
    simp only [lookup_insert_eq] at h
    by_cases hk : id = k
    · rw [if_pos hk] at h
      cases h
      exact hrange
    · rw [if_neg hk] at h
      exact hs.range id dev h

theorem Inv_create {c : crypto.Lib} {s : Registry} (hs : Inv s)
    (body : Option dto.CreateSignatureDeviceRequest) (newID : String) (rnd : Nat) :
    Inv (CreateSignatureDevice c s body newID rnd).2 := by
  rcases CreateSignatureDevice_cases c s body newID rnd with
    ⟨code, errs, h⟩ | ⟨payload, privateKey, publicKey, _, halg, hnone, h⟩
  · rw [h]; exact hs
  · rw [h]
    apply Inv_insert hs
    · rfl
    · intro id hid
      by_cases hk : id = newID
      · subst hk
        simp [AList.lookup_insert]
      · rw [AList.lookup_insert_ne hk]
        rcases hid with hid | ⟨dev, hdev⟩
        · exact absurd hid hk
        · exact hs.lock_free id dev hdev
    · exact halg
    · simp

theorem Inv_signed {c : crypto.Lib} {s s1 : Registry} {id data : String} {rnd : Nat}
    {r : HTTPResponse} (hs : Inv s) (h : Signed c s id data rnd r s1) : Inv s1 := by
  obtain ⟨device, signed, hdev, hlock, _, _, _, _, hs1⟩ := h
  rw [hs1]
  have hid : device.ID = id := hs.id_eq id device hdev
  apply Inv_insert hs
  · rfl
  · intro k hk
    rcases hk with hk | ⟨dev, hk⟩
    · rw [hk, hid]; exact hlock
    · exact hs.lock_free k dev hk
  · exact hs.algorithm id device hdev
  · exact wrapInt64_range _

theorem SignTransaction_total {c : crypto.Lib} {s : Registry} (hs : Inv s) (id : String)
    (body : Option dto.SignTransactionRequest) (rnd : Nat) :
    ∃ r s1, SignTransaction c s id body rnd = some (r, s1) := by
  unfold SignTransaction
  by_cases hid : id = ""
  · rw [if_pos hid]; exact ⟨_, _, rfl⟩
  rw [if_neg hid]
  cases body with
  | none => exact ⟨_, _, rfl⟩
  | some payload =>
    simp only
    by_cases hd : payload.Data = ""
    · rw [if_pos hd]; exact ⟨_, _, rfl⟩
    rw [if_neg hd]
    cases hg : s.Get id with
    | error err => exact ⟨_, _, rfl⟩
    | ok device =>
      have hl := hs.lock_free id device (InMemoryStore.Get_eq_ok.mp hg)
      simp only [InMemoryStore.Lock, hl]
      exact ⟨_, _, rfl⟩

theorem serve_total {c : crypto.Lib} {s : Registry} (hs : Inv s) (q : Request) :
    ∃ r s1, serve c s q = some (r, s1) := by
  cases q with
  | create body newID rnd => exact ⟨_, _, rfl⟩
  | sign id body rnd => exact SignTransaction_total hs id body rnd
  | get id => exact ⟨_, _, rfl⟩
  | list => exact ⟨_, _, rfl⟩

theorem serve_inv {c : crypto.Lib} {s s1 : Registry} {q : Request} {r : HTTPResponse}
    (hs : Inv s) (h : serve c s q = some (r, s1)) : Inv s1 := by
  cases q with
  | create body newID rnd =>
    simp only [serve, Option.some.injEq] at h
    have : Inv (CreateSignatureDevice c s body newID rnd).2 := Inv_create hs body newID rnd
    rw [h] at this
    exact this
  | sign id body rnd =>
    rcases SignTransaction_cases h with ⟨_, _, _, h1⟩ | ⟨payload, _, h1⟩
    · rw [h1]; exact hs
    · exact Inv_signed hs h1
  | get id =>
    simp only [serve, Option.some.injEq, Prod.mk.injEq] at h
    rw [← h.2]; exact hs
  | list =>
    simp only [serve, Option.some.injEq, Prod.mk.injEq] at h
    rw [← h.2]; exact hs

theorem run_cons {c : crypto.Lib} {s s2 : Registry} {q : Request} {rest : List Request}
    {log : List (Request × HTTPResponse)} (h : run c s (q :: rest) = some (log, s2)) :
    ∃ r s1 log1, serve c s q = some (r, s1) ∧ run c s1 rest = some (log1, s2) ∧
      log = (q, r) :: log1 := by
  unfold run at h
  cases hq : serve c s q with
  | none => simp [hq] at h
  | some p =>
    obtain ⟨r, s1⟩ := p
    simp only [hq] at h
    cases hr : run c s1 rest with
    | none => simp [hr] at h
    | some p1 =>
      obtain ⟨log1, s3⟩ := p1
      simp only [hr, Option.some.injEq, Prod.mk.injEq] at h
      exact ⟨r, s1, log1, rfl, by rw [← h.2, hr], h.1.symm⟩

theorem run_total {c : crypto.Lib} (reqs : List Request) :
    ∀ {s : Registry}, Inv s → ∃ log s1, run c s reqs = some (log, s1) := by
  induction reqs with
  | nil => intro s _; exact ⟨_, _, rfl⟩
  | cons q rest ih =>
    intro s hs
    have htotal : ∃ r s1, serve c s q = some (r, s1) := serve_total hs q
    obtain ⟨r, s1, h1⟩ := htotal
    obtain ⟨log, s2, h2⟩ := ih (serve_inv hs h1)
    exact ⟨(q, r) :: log, s2, by simp [run, h1, h2]⟩

theorem run_inv {c : crypto.Lib} (reqs : List Request) :
    ∀ {s s1 : Registry} {log : List (Request × HTTPResponse)}, Inv s →
      run c s reqs = some (log, s1) → Inv s1 := by
  induction reqs with
  | nil =>
    intro s s1 log hs h
    simp only [run, Option.some.injEq, Prod.mk.injEq] at h
    rw [← h.2]; exact hs
  | cons q rest ih =>
    intro s s1 log hs h
    obtain ⟨r, s2, log1, h1, h2, _⟩ := run_cons h
    exact ih (serve_inv hs h1) h2

end api

/-! ## The chain of payloads along a run -/

namespace api

open persistence domain

theorem signRecord_error (id : String) (q : Request) (code : Nat) (errs : List String) :
    signRecord id (q, HTTPResponse.ErrorResponse code errs) = none := by
  cases q <;> simp [signRecord]

theorem signRecord_signed (id id1 : String) (payload : dto.SignTransactionRequest)
    (rnd code : Nat) (r : dto.SignTransactionResponse) :
    signRecord id (Request.sign id1 (some payload) rnd,
        HTTPResponse.Response code (Data.signed r)) =
      if id1 = id then
        some { Data := payload.Data, Signature := r.Signature, SignedData := r.SignedData }
      else none := by
  simp [signRecord]

theorem signRecord_create (id : String) (body : Option dto.CreateSignatureDeviceRequest)
    (newID : String) (rnd : Nat) (r : HTTPResponse) :
    signRecord id (Request.create body newID rnd, r) = none := by
  simp [signRecord]

theorem signRecord_get (id id1 : String) (r : HTTPResponse) :
    signRecord id (Request.get id1, r) = none := by
  simp [signRecord]

theorem signRecord_list (id : String) (r : HTTPResponse) :
    signRecord id (Request.list, r) = none := by
  simp [signRecord]

theorem Signed_same {c : crypto.Lib} {s s1 : Registry} {id data : String} {rnd : Nat}
    {sig signedData : String} {code : Nat} (hs : Inv s)
    (h : Signed c s id data rnd
      (HTTPResponse.Response code (Data.signed { Signature := sig, SignedData := signedData }))
      s1) :
    signedData = payloadOf id (counterOf s id) (lastSignatureOf s id) data ∧
    counterOf s1 id = wrapInt64 (counterOf s id + 1) ∧
    lastSignatureOf s1 id = sig ∧
    data ≠ "" ∧ id ≠ "" := by
  obtain ⟨device, signed, hdev, _, hid0, hd0, _, hr, hs1⟩ := h
  have hid : device.ID = id := hs.id_eq id device hdev
  simp only [HTTPResponse.Response.injEq, Data.signed.injEq,
    dto.SignTransactionResponse.mk.injEq] at hr
  obtain ⟨_, hsig, hdata⟩ := hr
  have hl : s1.storage.lookup id =
      some (advance device (base64.EncodeToString signed)) := by
    rw [hs1, hid]
    simp [AList.lookup_insert]
  refine ⟨?_, ?_, ?_, hd0, hid0⟩
  · rw [hdata, composeData_eq, hid, counterOf_lookup hdev, lastSignatureOf_lookup hdev]
  · rw [counterOf_lookup hl, counterOf_lookup hdev]
    rfl
  · rw [lastSignatureOf_lookup hl, hsig]
    rfl

theorem Signed_other {c : crypto.Lib} {s s1 : Registry} {id id1 data : String} {rnd : Nat}
    {r : HTTPResponse} (hs : Inv s) (h : Signed c s id1 data rnd r s1) (hne : id1 ≠ id) :
    s1.storage.lookup id = s.storage.lookup id := by
  obtain ⟨device, signed, hdev, _, _, _, _, _, hs1⟩ := h
  have hid : device.ID = id1 := hs.id_eq id1 device hdev
  rw [hs1, hid]
  exact AList.lookup_insert_ne (Ne.symm hne)

theorem counterOf_congr {s s1 : Registry} {id : String}
    (h : s1.storage.lookup id = s.storage.lookup id) :
    counterOf s1 id = counterOf s id ∧ lastSignatureOf s1 id = lastSignatureOf s id := by
  simp [counterOf, lastSignatureOf, h]

theorem serve_signed {c : crypto.Lib} {s s1 : Registry} {q : Request} {r : HTTPResponse}
    {id : String} {e : SignRecord} (hs : Inv s) (h : serve c s q = some (r, s1))
    (he : signRecord id (q, r) = some e) :
    e.SignedData = payloadOf id (counterOf s id) (lastSignatureOf s id) e.Data ∧
    counterOf s1 id = wrapInt64 (counterOf s id + 1) ∧
    lastSignatureOf s1 id = e.Signature ∧ e.Data ≠ "" ∧ id ≠ "" := by
  cases q with
  | create body newID rnd => simp [signRecord_create] at he
  | get id1 => simp [signRecord_get] at he
  | list => simp [signRecord_list] at he
  | sign id1 body rnd =>
    rcases SignTransaction_cases h with ⟨code, errs, hr, _⟩ | ⟨payload, hb, h1⟩
    · rw [hr, signRecord_error] at he
      cases he
    · have h2 := h1
      obtain ⟨device, signed, _, _, _, _, _, hr, _⟩ := h2
      subst hb
      rw [hr, signRecord_signed] at he
      by_cases hid : id1 = id
      · rw [if_pos hid] at he
        simp only [Option.some.injEq] at he
        subst hid
        rw [hr] at h1
        rw [← he]
        exact Signed_same hs h1
      · rw [if_neg hid] at he
        cases he

theorem serve_other {c : crypto.Lib} {s s1 : Registry} {q : Request} {r : HTTPResponse}
    {id : String} (hs : Inv s) (h : serve c s q = some (r, s1))
    (he : signRecord id (q, r) = none) :
    counterOf s1 id = counterOf s id ∧ lastSignatureOf s1 id = lastSignatureOf s id := by
  cases q with
  | get id1 =>
    simp only [serve, Option.some.injEq, Prod.mk.injEq] at h
    rw [← h.2]; exact ⟨rfl, rfl⟩
  | list =>
    simp only [serve, Option.some.injEq, Prod.mk.injEq] at h
    rw [← h.2]; exact ⟨rfl, rfl⟩
  | create body newID rnd =>
    simp only [serve, Option.some.injEq] at h
    rcases CreateSignatureDevice_cases c s body newID rnd with
      ⟨code, errs, h1⟩ | ⟨payload, privateKey, publicKey, _, _, hnone, h1⟩
    · rw [h1] at h
      simp only [Prod.mk.injEq] at h
      rw [← h.2]; exact ⟨rfl, rfl⟩
    · rw [h1] at h
      simp only [Prod.mk.injEq] at h
      rw [← h.2]
      by_cases hk : id = newID
      · subst hk
        simp [counterOf, lastSignatureOf, AList.lookup_insert, hnone]
      · apply counterOf_congr
        exact AList.lookup_insert_ne hk
  | sign id1 body rnd =>
    rcases SignTransaction_cases h with ⟨code, errs, _, hs1⟩ | ⟨payload, hb, h1⟩
    · rw [hs1]; exact ⟨rfl, rfl⟩
    · have h2 := h1
      obtain ⟨device, signed, _, _, _, _, _, hr, _⟩ := h2
      subst hb
      rw [hr, signRecord_signed] at he
      by_cases hid : id1 = id
      · rw [if_pos hid] at he
        cases he
      · exact counterOf_congr (Signed_other hs h1 hid)

theorem run_chain {c : crypto.Lib} (id : String) (reqs : List Request) :
    ∀ {s s1 : Registry} {log : List (Request × HTTPResponse)}, Inv s →
      run c s reqs = some (log, s1) →
      Chain id (counterOf s id) (lastSignatureOf s id) (signLog id log)
        (counterOf s1 id) (lastSignatureOf s1 id) := by
  induction reqs with
  | nil =>
    intro s s1 log _ h
    simp only [run, Option.some.injEq, Prod.mk.injEq] at h
    rw [← h.1, ← h.2]
    exact ⟨rfl, rfl⟩
  | cons q rest ih =>
    intro s s1 log hs h
    obtain ⟨r, s2, log1, h1, h2, hlog⟩ := run_cons h
    have hrest := ih (serve_inv hs h1) h2
    rw [hlog]
    cases he : signRecord id (q, r) with
    | none =>
      obtain ⟨hc, hl⟩ := serve_other hs h1 he
      simp only [signLog, List.filterMap_cons, he]
      rw [← hc, ← hl]
      exact hrest
    | some e =>
      obtain ⟨hp, hc, hl, _, _⟩ := serve_signed hs h1 he
      simp only [signLog, List.filterMap_cons, he]
      refine ⟨hp, ?_⟩
      rw [← hc, ← hl]
      exact hrest

theorem Chain_counter (id : String) (h : List SignRecord) :
    ∀ {c c1 : Int} {l l1 : String}, Chain id c l h c1 l1 →
      -(2 ^ 63) ≤ c → c < 2 ^ 63 → c1 = wrapInt64 (c + h.length) := by
  induction h with
  | nil =>
    intro c c1 l l1 hc h1 h2
    rw [hc.1]
    simp [wrapInt64_of_range h1 h2]
  | cons e rest ih =>
    intro c c1 l l1 hc h1 h2
    have hr := wrapInt64_range (c + 1)
    rw [ih hc.2 hr.1 hr.2, wrapInt64_add]
    congr 1
    simp only [List.length_cons, Nat.cast_add, Nat.cast_one]
    ring

theorem Chain_head (id : String) {c c1 : Int} {l l1 : String} {e : SignRecord}
    {rest : List SignRecord} (h : Chain id c l (e :: rest) c1 l1) :
    e.SignedData = payloadOf id c l e.Data :=
  h.1

theorem Chain_link (id : String) (h : List SignRecord) :
    ∀ {c c1 : Int} {l l1 : String} (n : Nat) {e p : SignRecord}, Chain id c l h c1 l1 →
      h[n + 1]? = some e → h[n]? = some p →
      e.SignedData = payloadOf id (wrapInt64 (c + (n + 1 : Nat))) p.Signature e.Data := by
  induction h with
  | nil =>
    intro c c1 l l1 n e p _ he
    simp at he
  | cons e0 rest ih =>
    intro c c1 l l1 n e p hc he hp
    simp only [List.getElem?_cons_succ] at he
    cases n with
    | zero =>
      simp only [List.getElem?_cons_zero, Option.some.injEq] at hp
      subst hp
      cases rest with
      | nil => simp at he
      | cons e1 rest1 =>
        simp only [List.getElem?_cons_zero, Option.some.injEq] at he
        subst he
        have := Chain_head id hc.2
        simpa using this
    | succ m =>
      simp only [List.getElem?_cons_succ] at hp
      have := ih m hc.2 he hp
      rw [wrapInt64_add] at this
      rw [this]
      congr 2
      push_cast
      ring

theorem Chain_last (id : String) (h : List SignRecord) :
    ∀ {c c1 : Int} {l l1 : String} {e : SignRecord}, Chain id c l h c1 l1 →
      h.getLast? = some e → l1 = e.Signature := by
  induction h with
  | nil =>
    intro c c1 l l1 e _ he
    simp at he
  | cons e0 rest ih =>
    intro c c1 l l1 e hc he
    cases rest with
    | nil =>
      simp only [List.getLast?_singleton, Option.some.injEq] at he
      subst he
      exact hc.2.2
    | cons e1 rest1 =>
      rw [List.getLast?_cons_cons] at he
      exact ih hc.2 he

end api

/-! ## The claims about single calls -/

namespace api

open persistence domain

theorem SignTransaction_ok {c : crypto.Lib} {s : Registry} {id data : String} {rnd : Nat}
    {device : SignatureDevice} {signed : Bytes} (hid : id ≠ "") (hd : data ≠ "")
    (hdev : s.storage.lookup id = some device) (hl : s.locks.lookup id = some false)
    (hs : getSignedData c (composeData device data) device.PrivateKey device.Algorithm rnd =
      Except.ok signed) :
    SignTransaction c s id (some { Data := data }) rnd =
      some (HTTPResponse.Response 200 (Data.signed
          { Signature := base64.EncodeToString signed,
            SignedData := composeData device data }),
        { storage :=
            s.storage.insert device.ID (advance device (base64.EncodeToString signed)),
          locks := s.locks }) := by
  have hg : s.Get id = Except.ok device := InMemoryStore.Get_eq_ok.mpr hdev
  have hmem : id ∈ s.locks := GoMap.mem_of_lookup hl
  unfold SignTransaction
  rw [if_neg hid]
  simp only [if_neg hd, hg, InMemoryStore.Lock, hl, signHolding_ok _ hs,
    InMemoryStore.Unlock, GoMap.lookup_replace_self _ _ _ hmem,
    GoMap.replace_replace_cancel _ _ _ _ hl]

/-- C4.  When SignTransaction answers with an error, on whichever path, the
registry after the call is the registry before it.  Whatever it answers, every
record afterwards is a record that was there before, or it is the signed
device with both its counter advanced and its last signature set to the
signature the call returned. -/
theorem SignTransaction_failure_keeps_registry (c : crypto.Lib) (s s1 : Registry) (id : String)
    (body : Option dto.SignTransactionRequest) (rnd : Nat) (r : HTTPResponse)
    (h : SignTransaction c s id body rnd = some (r, s1)) :
    (∀ code errs, r = HTTPResponse.ErrorResponse code errs → s1 = s) ∧
    (∀ id1 d1, s1.Get id1 = Except.ok d1 →
      s.Get id1 = Except.ok d1 ∨
      ∃ d sig signedData, s.Get id = Except.ok d ∧
        r = HTTPResponse.Response 200
          (Data.signed { Signature := sig, SignedData := signedData }) ∧
        d1 = { d with Counter := wrapInt64 (d.Counter + 1), LastSignature := sig }) := by
  rcases SignTransaction_cases h with ⟨code, errs, hr, hs1⟩ | ⟨payload, _, h1⟩
  · refine ⟨fun _ _ _ => hs1, fun id1 d1 hg => Or.inl ?_⟩
    rw [← hs1]; exact hg
  · obtain ⟨device, signed, hdev, _, _, _, _, hr, hs1⟩ := h1
    refine ⟨?_, ?_⟩
    · intro code errs he
      rw [hr] at he
      cases he
    · intro id1 d1 hg
      rw [hs1, InMemoryStore.Get_eq_ok] at hg
      simp only [lookup_insert_eq] at hg
      by_cases hk : id1 = device.ID
      · rw [if_pos hk] at hg
        simp only [Option.some.injEq] at hg
        exact Or.inr ⟨device, _, _, InMemoryStore.Get_eq_ok.mpr hdev, hr, hg.symm⟩
      · rw [if_neg hk] at hg
        exact Or.inl (InMemoryStore.Get_eq_ok.mpr hg)

/-- C7 (amended).  For an id that is not in the store, Get returns
ErrItemNotFound and no item; when the id is moreover not empty, the get handler
and the sign handler (with data that is not empty) answer 404 Not Found and
leave the registry as it was. -/
theorem unknown_id_not_found (c : crypto.Lib) (s : Registry) (id : String)
    (habsent : id ∉ s.storage) :
    s.Get id = Except.error GoError.ErrItemNotFound ∧
    (id ≠ "" →
      serve c s (Request.get id) = some (HTTPResponse.ErrorResponse 404 ["Not Found"], s) ∧
      ∀ data rnd, data ≠ "" →
        serve c s (Request.sign id (some { Data := data }) rnd) =
          some (HTTPResponse.ErrorResponse 404 ["Not Found"], s)) := by
  have hg : s.Get id = Except.error GoError.ErrItemNotFound :=
    InMemoryStore.Get_eq_error.mpr ⟨habsent, rfl⟩
  refine ⟨hg, fun hid => ⟨?_, ?_⟩⟩
  · simp only [serve, GetSignatureDevice, if_neg hid, hg, handleStoreErr_notFound]
  · intro data rnd hd
    simp only [serve, SignTransaction, if_neg hid, if_neg hd, hg, handleStoreErr_notFound]

/-- C2.  In a registry reached from the empty one, a successful sign with data
`d` on a device X whose counter is 0 returns the payload "0_" ++ d ++ "_" ++
base64(X), and afterwards the device has counter 1 and the returned signature
as its last signature, its other fields being as before. -/
theorem first_sign_payload (c : crypto.Lib) (reqs : List Request)
    (log : List (Request × HTTPResponse)) (s s1 : Registry) (X d : String) (rnd code : Nat)
    (dev : SignatureDevice) (r : dto.SignTransactionResponse)
    (hrun : run c NewInMemoryStore reqs = some (log, s))
    (hget : s.Get X = Except.ok dev) (hzero : dev.Counter = 0)
    (hsign : SignTransaction c s X (some { Data := d }) rnd =
      some (HTTPResponse.Response code (Data.signed r), s1)) :
    r.SignedData = "0_" ++ d ++ "_" ++ base64.EncodeToString (stringBytes X) ∧
    s1.Get X = Except.ok { dev with Counter := 1, LastSignature := r.Signature } := by
  have hinv : Inv s := run_inv reqs Inv_new hrun
  rcases SignTransaction_cases hsign with ⟨_, _, hr, _⟩ | ⟨payload, hb, h1⟩
  · cases hr
  · obtain ⟨device, signed, hdev, _, _, _, _, hr, hs1⟩ := h1
    have hd : device = dev := by
      rw [InMemoryStore.Get_eq_ok, hdev] at hget
      exact Option.some.inj hget
    subst hd
    have hid : device.ID = X := hinv.id_eq X device hdev
    simp only [Option.some.injEq] at hb
    subst hb
    simp only [HTTPResponse.Response.injEq, Data.signed.injEq] at hr
    obtain ⟨_, hr⟩ := hr
    subst hr
    refine ⟨?_, ?_⟩
    · simp only [composeData, previousLink, hzero, if_true, hid]
      rfl
    · have hw : wrapInt64 (0 + 1) = 1 := by decide
      rw [hs1, InMemoryStore.Get_eq_ok]
      simp only [hid, AList.lookup_insert, advance, hzero, hw]

/-- C9.  In a registry reached from the empty one by create, sign, get and
list requests, every stored device has the algorithm RSA or ECC, so that the
signer selection of a sign on it never fails with the invalid-algorithm error;
and a create request with any other algorithm is answered by that error and
leaves the registry as it was. -/
theorem stored_algorithm_supported (c : crypto.Lib) (reqs : List Request)
    (log : List (Request × HTTPResponse)) (s : Registry)
    (hrun : run c NewInMemoryStore reqs = some (log, s)) :
    (∀ id dev, s.Get id = Except.ok dev →
      (dev.Algorithm = RSAAlgorithm ∨ dev.Algorithm = ECCAlgorithm) ∧
      ∀ data rnd a, getSignedData c data dev.PrivateKey dev.Algorithm rnd ≠
        Except.error (GoError.invalidAlgorithm a)) ∧
    (∀ (payload : dto.CreateSignatureDeviceRequest) newID rnd,
      payload.Algorithm ≠ RSAAlgorithm → payload.Algorithm ≠ ECCAlgorithm →
      CreateSignatureDevice c s (some payload) newID rnd =
        (HTTPResponse.ErrorResponse 400
          ["failed to create keys: invalid algorithm " ++ payload.Algorithm], s)) := by
  have hinv : Inv s := run_inv reqs Inv_new hrun
  refine ⟨?_, ?_⟩
  · intro id dev hg
    have halg := hinv.algorithm id dev (InMemoryStore.Get_eq_ok.mp hg)
    exact ⟨halg, fun data rnd a => getSignedData_supported c data _ _ rnd halg a⟩
  · intro payload newID rnd h1 h2
    simp only [CreateSignatureDevice, getKeys_invalid c _ rnd h1 h2]
    rfl

end api

/-! ## The claims about runs -/

namespace api

open persistence domain

theorem lookup_kept {c : crypto.Lib} {s s1 : Registry} {q : Request} {r : HTTPResponse}
    {id : String} {dev : SignatureDevice} (h : serve c s q = some (r, s1))
    (hdev : s.storage.lookup id = some dev) : ∃ dev1, s1.storage.lookup id = some dev1 := by
  cases q with
  | get id1 =>
    simp only [serve, Option.some.injEq, Prod.mk.injEq] at h
    rw [← h.2]; exact ⟨dev, hdev⟩
  | list =>
    simp only [serve, Option.some.injEq, Prod.mk.injEq] at h
    rw [← h.2]; exact ⟨dev, hdev⟩
  | create body newID rnd =>
    simp only [serve, Option.some.injEq] at h
    rcases CreateSignatureDevice_cases c s body newID rnd with
      ⟨code, errs, h1⟩ | ⟨payload, privateKey, publicKey, _, _, hnone, h1⟩
    · rw [h1] at h
      simp only [Prod.mk.injEq] at h
      rw [← h.2]; exact ⟨dev, hdev⟩
    · rw [h1] at h
      simp only [Prod.mk.injEq] at h
      rw [← h.2]
      simp only [lookup_insert_eq]
      by_cases hk : id = newID
      · rw [if_pos hk]; exact ⟨_, rfl⟩
      · rw [if_neg hk]; exact ⟨dev, hdev⟩
  | sign id1 body rnd =>
    rcases SignTransaction_cases h with ⟨code, errs, _, hs1⟩ | ⟨payload, hb, h1⟩
    · rw [hs1]; exact ⟨dev, hdev⟩
    · obtain ⟨device, signed, _, _, _, _, _, _, hs1⟩ := h1
      rw [hs1]
      simp only [lookup_insert_eq]
      by_cases hk : id = device.ID
      · rw [if_pos hk]; exact ⟨_, rfl⟩
      · rw [if_neg hk]; exact ⟨dev, hdev⟩

theorem run_lookup_kept {c : crypto.Lib} (id : String) (reqs : List Request) :
    ∀ {s s1 : Registry} {log : List (Request × HTTPResponse)} {dev : SignatureDevice},
      run c s reqs = some (log, s1) → s.storage.lookup id = some dev →
      ∃ dev1, s1.storage.lookup id = some dev1 := by
  induction reqs with
  | nil =>
    intro s s1 log dev h hdev
    simp only [run, Option.some.injEq, Prod.mk.injEq] at h
    rw [← h.2]; exact ⟨dev, hdev⟩
  | cons q rest ih =>
    intro s s1 log dev h hdev
    obtain ⟨r, s2, log1, h1, h2, _⟩ := run_cons h
    obtain ⟨dev2, hdev2⟩ := lookup_kept h1 hdev
    exact ih h2 hdev2

theorem counterOf_new (id : String) : counterOf (NewInMemoryStore : Registry) id = 0 := by
  simp [counterOf, NewInMemoryStore]

theorem lastSignatureOf_new (id : String) :
    lastSignatureOf (NewInMemoryStore : Registry) id = "" := by
  simp [lastSignatureOf, NewInMemoryStore]

/-- The counter of a device after a run from the empty registry: the number of
successful signs on it, wrapped into the range of int64. -/
theorem run_counter {c : crypto.Lib} {reqs : List Request}
    {log : List (Request × HTTPResponse)} {s : Registry} (id : String)
    (hrun : run c NewInMemoryStore reqs = some (log, s)) :
    counterOf s id = wrapInt64 ((signLog id log).length : Nat) := by
  have h := Chain_counter id _ (run_chain id reqs Inv_new hrun)
  rw [counterOf_new] at h
  have := h (by norm_num) (by norm_num)
  simpa using this

/-- The payload of the sign number `n + 1` on a device in a run from the empty
registry, the first sign being number 0. -/
theorem run_link {c : crypto.Lib} {reqs : List Request}
    {log : List (Request × HTTPResponse)} {s : Registry} (id : String) (n : Nat)
    {e p : SignRecord} (hrun : run c NewInMemoryStore reqs = some (log, s))
    (he : (signLog id log)[n + 1]? = some e) (hp : (signLog id log)[n]? = some p) :
    e.SignedData = payloadOf id (wrapInt64 ((n + 1 : Nat) : Int)) p.Signature e.Data := by
  have h := Chain_link id _ n (run_chain id reqs Inv_new hrun) he hp
  rw [counterOf_new] at h
  simpa using h

theorem wrapInt64_natCast {n : Nat} (h : n < 2 ^ 63) : wrapInt64 (n : Int) = (n : Int) := by
  apply wrapInt64_of_range
  · have : (0 : Int) ≤ (n : Int) := Int.ofNat_nonneg n
    omega
  · have : ((n : Nat) : Int) < ((2 ^ 63 : Nat) : Int) := Int.ofNat_lt.mpr h
    simpa using this

/-- C1 (amended).  In a run of requests from the empty registry, number the
successful signs on a device 0, 1, 2, ... in the order they happen.  For
1 ≤ n < 2^63, the payload returned by sign n is the decimal text of n, "_", the
data of that call, "_", and the signature returned by sign n-1; and the
signature returned by the last successful sign is the stored lastSignature. -/
theorem payload_links_previous_signature (c : crypto.Lib) (reqs : List Request)
    (log : List (Request × HTTPResponse)) (s : Registry) (id : String) (n : Nat)
    (e p : SignRecord)
    (hrun : run c NewInMemoryStore reqs = some (log, s))
    (h1 : 1 ≤ n) (h2 : n < 2 ^ 63)
    (he : (signLog id log)[n]? = some e) (hp : (signLog id log)[n - 1]? = some p) :
    e.SignedData = Nat.repr n ++ "_" ++ e.Data ++ "_" ++ p.Signature ∧
    ∀ last dev, (signLog id log).getLast? = some last → s.Get id = Except.ok dev →
      dev.LastSignature = last.Signature := by
  refine ⟨?_, ?_⟩
  · obtain ⟨m, rfl⟩ : ∃ m, n = m + 1 := ⟨n - 1, by omega⟩
    simp only [Nat.add_sub_cancel] at hp
    rw [run_link id m hrun he hp, wrapInt64_natCast h2]
    have hne : ((m + 1 : Nat) : Int) ≠ 0 := by
      have : (0 : Int) ≤ (m : Int) := Int.ofNat_nonneg m
      push_cast
      omega
    simp only [payloadOf, if_neg hne]
    rfl
  · intro last dev hlast hget
    have h := Chain_last id _ (run_chain id reqs Inv_new hrun) hlast
    rw [lastSignatureOf_lookup (InMemoryStore.Get_eq_ok.mp hget)] at h
    exact h

/-- C3 (amended).  Take requests that are served one after another, no call
overlapping another: a run from the empty registry and any run that continues
it, failed calls and calls on other devices included.  As long as the
successful signs on a device number fewer than 2^63 in all, its stored counter
after the first run is the number of successful signs on it so far, the device
is still stored after the continuation, and its counter has then grown by
exactly the number of successful signs on it in the continuation.  Nothing is
stated here for calls that overlap. -/
theorem counter_counts_successful_signs (c : crypto.Lib) (reqs more : List Request)
    (log log2 : List (Request × HTTPResponse)) (s s2 : Registry) (id : String)
    (dev : SignatureDevice)
    (hrun : run c NewInMemoryStore reqs = some (log, s))
    (hmore : run c s more = some (log2, s2))
    (hget : s.Get id = Except.ok dev)
    (hk : (signLog id log).length + (signLog id log2).length < 2 ^ 63) :
    dev.Counter = ((signLog id log).length : Nat) ∧
    ∃ dev2, s2.Get id = Except.ok dev2 ∧
      dev2.Counter = dev.Counter + ((signLog id log2).length : Nat) := by
  have hdev := InMemoryStore.Get_eq_ok.mp hget
  have hinv : Inv s := run_inv reqs Inv_new hrun
  have hc : dev.Counter = ((signLog id log).length : Nat) := by
    rw [← counterOf_lookup hdev, run_counter id hrun]
    exact wrapInt64_natCast (by omega)
  refine ⟨hc, ?_⟩
  obtain ⟨dev2, hdev2⟩ := run_lookup_kept id more hmore hdev
  refine ⟨dev2, InMemoryStore.Get_eq_ok.mpr hdev2, ?_⟩
  have hr := hinv.range id dev hdev
  have h := Chain_counter id _ (run_chain id more hinv hmore) (by
    rw [counterOf_lookup hdev]; exact hr.1) (by rw [counterOf_lookup hdev]; exact hr.2)
  rw [counterOf_lookup hdev, counterOf_lookup hdev2] at h
  rw [h, hc, ← Nat.cast_add]
  exact wrapInt64_natCast hk

end api

/-! ## Long runs on the stand-in library -/

namespace sample

open api persistence domain

theorem getSignedData_ok (data : String) (key : Bytes) (rnd : Nat) (hkey : key ≠ []) :
    ∃ signed, getSignedData lib data key ECCAlgorithm rnd = Except.ok signed := by
  have hne : ¬ (ECCAlgorithm = RSAAlgorithm) := by decide
  refine ⟨key ++ lib.Sum256 (stringBytes data) ++ [UInt8.ofNat rnd], ?_⟩
  simp [getSignedData, hne, crypto.NewECDSASigner, crypto.lift, lib, hkey,
    crypto.Signer.Sign]

/-- On the stand-in library every sign request of `signA` succeeds, as long as
the device X is there with the algorithm ECC and a key that parses. -/
theorem signs_succeed (k : Nat) :
    ∀ {s : Registry} {dev : SignatureDevice}, Inv s → s.storage.lookup "X" = some dev →
      dev.Algorithm = ECCAlgorithm → dev.PrivateKey ≠ [] →
      ∃ log s1, run lib s (List.replicate k signA) = some (log, s1) ∧
        (signLog "X" log).length = k ∧ ∀ e, e ∈ signLog "X" log → e.Data = "a" := by
  induction k with
  | zero =>
    intro s dev _ _ _ _
    exact ⟨[], s, rfl, rfl, by simp [signLog]⟩
  | succ k ih =>
    intro s dev hinv hdev halg hkey
    obtain ⟨signed, hsig⟩ := getSignedData_ok (composeData dev "a") dev.PrivateKey 0 hkey
    rw [← halg] at hsig
    have hserve : SignTransaction lib s "X" (some { Data := "a" }) 0 = _ :=
      SignTransaction_ok (by decide) (by decide) hdev (hinv.lock_free "X" dev hdev) hsig
    have hid : dev.ID = "X" := hinv.id_eq "X" dev hdev
    have hserve1 : serve lib s signA = _ := hserve
    have hinv1 := serve_inv hinv hserve1
    have hdev1 : AList.lookup "X" (AList.insert dev.ID
        (advance dev (base64.EncodeToString signed)) s.storage) =
        some (advance dev (base64.EncodeToString signed)) := by
      rw [hid]
      simp [AList.lookup_insert]
    obtain ⟨log, s1, hrun, hlen, hdata⟩ := ih hinv1 hdev1 halg hkey
    refine ⟨(signA, HTTPResponse.Response 200 (Data.signed
      { Signature := base64.EncodeToString signed, SignedData := composeData dev "a" })) :: log,
      s1, ?_, ?_, ?_⟩
    · rw [List.replicate_succ, run, hserve1]
      simp only [hrun]
    · simp only [signLog, List.filterMap_cons, signA, signRecord_signed, if_true,
        List.length_cons]
      rw [← hlen]
      rfl
    · intro e he
      simp only [signLog, List.filterMap_cons, signA, signRecord_signed, if_true,
        List.mem_cons] at he
      rcases he with he | he
      · rw [he]
      · exact hdata e he

theorem registry1_inv : Inv registry1 :=
  Inv_create Inv_new _ _ _

/-- The run `longRun k` goes through, and all its `k` sign requests succeed. -/
theorem longRun_log (k : Nat) :
    ∃ log s, run lib NewInMemoryStore (longRun k) = some (log, s) ∧
      (signLog "X" log).length = k ∧ (∀ e, e ∈ signLog "X" log → e.Data = "a") ∧
      ∃ dev, s.Get "X" = Except.ok dev := by
  have hdev : registry1.storage.lookup "X" = some deviceX := by decide
  obtain ⟨log, s, hrun, hlen, hdata⟩ :=
    signs_succeed k registry1_inv hdev (by decide) (by decide)
  have hcreate : serve lib NewInMemoryStore createX =
      some (HTTPResponse.Response 200 (Data.created { ID := "X" }), registry1) := by
    decide
  obtain ⟨dev1, hdev1⟩ := run_lookup_kept "X" _ hrun hdev
  refine ⟨(createX, HTTPResponse.Response 200 (Data.created { ID := "X" })) :: log, s,
    ?_, ?_, ?_, dev1, InMemoryStore.Get_eq_ok.mpr hdev1⟩
  · rw [longRun, run, hcreate]
    simp only [hrun]
  · simp only [signLog, List.filterMap_cons, createX, signRecord_create]
    exact hlen
  · intro e he
    simp only [signLog, List.filterMap_cons, createX, signRecord_create] at he
    exact hdata e he

end sample

/-! ## The counter at the end of the int64 range -/

namespace api

open persistence domain

/-- C3, the claim as stated fails: after the creation of device X and 2^63
successful signs on it, the stored counter is -2^63, not 2^63. -/
theorem counter_wraps_after_two_pow_63_signs :
    ∃ log s dev, run sample.lib NewInMemoryStore (sample.longRun (2 ^ 63)) = some (log, s) ∧
      (signLog "X" log).length = 2 ^ 63 ∧ s.Get "X" = Except.ok dev ∧
      dev.Counter = -(2 ^ 63) ∧ dev.Counter ≠ ((signLog "X" log).length : Nat) := by
  obtain ⟨log, s, hrun, hlen, _, dev, hget⟩ := sample.longRun_log (2 ^ 63)
  have hc : dev.Counter = -(2 ^ 63) := by
    rw [← counterOf_lookup (InMemoryStore.Get_eq_ok.mp hget), run_counter "X" hrun, hlen]
    decide
  refine ⟨log, s, dev, hrun, hlen, hget, hc, ?_⟩
  rw [hc, hlen]
  decide

/-- C1, the claim as stated fails: in the run that creates device X and signs
2^63 + 1 times on it, the payload of sign number 2^63 does not start with the
decimal text of 2^63 (it starts with the text of -2^63). -/
theorem payload_counter_wraps_at_two_pow_63 :
    ∃ log s e p,
      run sample.lib NewInMemoryStore (sample.longRun (2 ^ 63 + 1)) = some (log, s) ∧
      (signLog "X" log)[2 ^ 63]? = some e ∧ (signLog "X" log)[2 ^ 63 - 1]? = some p ∧
      e.SignedData ≠ Nat.repr (2 ^ 63) ++ "_" ++ e.Data ++ "_" ++ p.Signature := by
  obtain ⟨log, s, hrun, hlen, _, _⟩ := sample.longRun_log (2 ^ 63 + 1)
  have hlt : 2 ^ 63 < (signLog "X" log).length := by omega
  have hlt1 : 2 ^ 63 - 1 < (signLog "X" log).length := by omega
  have he : (signLog "X" log)[2 ^ 63]? = some ((signLog "X" log)[2 ^ 63]) :=
    List.getElem?_eq_getElem hlt
  have hp : (signLog "X" log)[2 ^ 63 - 1]? = some ((signLog "X" log)[2 ^ 63 - 1]) :=
    List.getElem?_eq_getElem hlt1
  refine ⟨log, s, _, _, hrun, he, hp, ?_⟩
  have hlink := run_link "X" (2 ^ 63 - 1) hrun he hp
  rw [hlink]
  have hw : wrapInt64 ((2 ^ 63 - 1 + 1 : Nat) : Int) = -(2 ^ 63) := by decide
  have hne : (-(2 ^ 63) : Int) ≠ 0 := by decide
  have hneg : Int.repr (-(2 ^ 63)) = "-9223372036854775808" := by decide
  have hpos : Nat.repr (2 ^ 63) = "9223372036854775808" := by decide
  rw [hw, payloadOf, if_neg hne, hneg, hpos]
  intro h
  have h1 := congrArg (fun t : String => t.data.head?) h
  simp [String.data_append] at h1

end api

/-! ## The claims at concrete inputs -/

set_option maxRecDepth 100000

namespace api

open persistence domain

/-- The handler run alone is the lone call run to its end: the steps of
`Call.step` are the steps of `SignTransaction`. -/
theorem SignTransaction_eq_finish (c : crypto.Lib) (s : Registry) (id : String)
    (body : Option dto.SignTransactionRequest) (rnd : Nat) :
    SignTransaction c s id body rnd =
      Call.finish c s { id := id, body := body, rnd := rnd, progress := Progress.start } 6 := by
  unfold SignTransaction
  by_cases hid : id = ""
  · simp [Call.finish, Call.step, Call.move, hid]
  rw [if_neg hid]
  cases body with
  | none => simp [Call.finish, Call.step, Call.move, hid]
  | some payload =>
    by_cases hd : payload.Data = ""
    · simp [Call.finish, Call.step, Call.move, hid, hd]
    simp only [if_neg hd]
    cases hg : s.Get id with
    | error err => simp [Call.finish, Call.step, Call.move, hid, hd, hg]
    | ok device =>
      cases hl : s.Lock id with
      | blocked => simp [Call.finish, Call.step, Call.move, hid, hd, hg, hl]
      | failed err => simp [Call.finish, Call.step, Call.move, hid, hd, hg, hl]
      | acquired s1 =>
        cases hs : getSignedData c (composeData device payload.Data) device.PrivateKey
            device.Algorithm rnd with
        | error err =>
          simp [Call.finish, Call.step, Call.move, hid, hd, hg, hl, hs, signHolding,
            WriteErrorResponse]
        | ok signed =>
          simp [Call.finish, Call.step, Call.move, Call.persist, hid, hd, hg, hl, hs,
            signHolding, InMemoryStore.Set, WriteAPIResponse]

/-- C1 at the example scenario: the second sign on X returns the payload made
of 1, the data "world" and the signature of the first sign. -/
theorem payload_links_previous_signature_witness :
    run sample.lib NewInMemoryStore [sample.createX, sample.signHello, sample.signWorld] =
      some (sample.log3, sample.registry3) ∧
    "1_world_AwcMFAE=" = Nat.repr 1 ++ "_" ++ "world" ++ "_" ++ "AwcMFAE=" :=
  ⟨by decide,
    (payload_links_previous_signature sample.lib
      [sample.createX, sample.signHello, sample.signWorld] sample.log3 sample.registry3 "X" 1
      { Data := "world", Signature := "AwcQiAI=", SignedData := "1_world_AwcMFAE=" }
      { Data := "hello", Signature := "AwcMFAE=", SignedData := "0_hello_WA==" }
      (by decide) (by decide) (by decide) (by decide) (by decide)).1⟩

/-- C2 at the example scenario: the first sign on the new device X with data
"hello" returns the payload "0_hello_WA==", where "WA==" encodes "X". -/
theorem first_sign_payload_witness :
    SignTransaction sample.lib sample.registry1 "X" (some { Data := "hello" }) 1 =
      some (HTTPResponse.Response 200
        (Data.signed { Signature := "AwcMFAE=", SignedData := "0_hello_WA==" }),
        sample.registry2) ∧
    "0_hello_WA==" = "0_" ++ "hello" ++ "_" ++ base64.EncodeToString (stringBytes "X") ∧
    sample.registry2.Get "X" =
      Except.ok { sample.deviceX with Counter := 1, LastSignature := "AwcMFAE=" } :=
  ⟨by decide,
    first_sign_payload sample.lib [sample.createX]
      [(sample.createX, HTTPResponse.Response 200 (Data.created { ID := "X" }))]
      sample.registry1 sample.registry2 "X" "hello" 1 200 sample.deviceX
      { Signature := "AwcMFAE=", SignedData := "0_hello_WA==" }
      (by decide) (by decide) (by decide) (by decide)⟩

/-- C3 at the example scenario: after the creation and one sign the counter of
X is 1; after a continuation with two failed calls and one more sign it is 2. -/
theorem counter_counts_successful_signs_witness :
    run sample.lib NewInMemoryStore [sample.createX, sample.signHello] =
      some (sample.log2, sample.registry2) ∧
    run sample.lib sample.registry2 sample.more = some (sample.logMore, sample.registry3) ∧
    (1 : Int) = ((signLog "X" sample.log2).length : Nat) ∧
    ∃ dev2, sample.registry3.Get "X" = Except.ok dev2 ∧
      dev2.Counter = 1 + ((signLog "X" sample.logMore).length : Nat) :=
  ⟨by decide, by decide,
    counter_counts_successful_signs sample.lib [sample.createX, sample.signHello] sample.more
      sample.log2 sample.logMore sample.registry2 sample.registry3 "X"
      { sample.deviceX with Counter := 1, LastSignature := "AwcMFAE=" }
      (by decide) (by decide) (by decide) (by decide)⟩

/-- C4 at a device whose key the signer rejects: the call answers with the
signing error and the registry is as before. -/
theorem SignTransaction_failure_keeps_registry_witness :
    SignTransaction sample.lib sample.registryBadKey "X" (some { Data := "hello" }) 1 =
      some (HTTPResponse.ErrorResponse 400 ["error while signing data: asn1: syntax error"],
        sample.registryBadKey) ∧
    (∀ code errs,
      HTTPResponse.ErrorResponse 400 ["error while signing data: asn1: syntax error"] =
        HTTPResponse.ErrorResponse code errs → sample.registryBadKey = sample.registryBadKey) :=
  ⟨by decide,
    (SignTransaction_failure_keeps_registry sample.lib sample.registryBadKey sample.registryBadKey
      "X" (some { Data := "hello" }) 1 _ (by decide)).1⟩

/-- C7, the claim as stated fails at the empty id: it is not in the new
registry, yet both handlers answer 400 "missing device ID", which is not the
not-found answer. -/
theorem empty_id_is_rejected_before_lookup :
    "" ∉ (NewInMemoryStore : Registry).storage ∧
    GetSignatureDevice NewInMemoryStore "" =
      HTTPResponse.ErrorResponse 400 ["missing device ID"] ∧
    SignTransaction sample.lib NewInMemoryStore "" (some { Data := "a" }) 0 =
      some (HTTPResponse.ErrorResponse 400 ["missing device ID"], NewInMemoryStore) ∧
    HTTPResponse.ErrorResponse 400 ["missing device ID"] ≠
      handleStoreErr GoError.ErrItemNotFound := by
  decide

/-- C7 at the test input: Get("invalid id") on a new store returns
ErrItemNotFound, and the handlers answer 404. -/
theorem unknown_id_not_found_witness :
    "invalid id" ∉ (NewInMemoryStore : Registry).storage ∧
    (NewInMemoryStore : Registry).Get "invalid id" = Except.error GoError.ErrItemNotFound ∧
    serve sample.lib NewInMemoryStore (Request.get "invalid id") =
      some (HTTPResponse.ErrorResponse 404 ["Not Found"], NewInMemoryStore) :=
  ⟨by decide,
    (unknown_id_not_found sample.lib NewInMemoryStore "invalid id" (by decide)).1,
    ((unknown_id_not_found sample.lib NewInMemoryStore "invalid id" (by decide)).2
      (by decide)).1⟩

/-- C9 at the example scenario: the stored device has the algorithm ECC, and
a create request with the algorithm "DSA" is refused. -/
theorem stored_algorithm_supported_witness :
    run sample.lib NewInMemoryStore [sample.createX, sample.signHello, sample.signWorld] =
      some (sample.log3, sample.registry3) ∧
    CreateSignatureDevice sample.lib sample.registry3
        (some { Algorithm := "DSA", Label := "" }) "Z" 0 =
      (HTTPResponse.ErrorResponse 400 ["failed to create keys: invalid algorithm " ++ "DSA"],
        sample.registry3) :=
  ⟨by decide,
    (stored_algorithm_supported sample.lib
      [sample.createX, sample.signHello, sample.signWorld] sample.log3 sample.registry3
      (by decide)).2 { Algorithm := "DSA", Label := "" } "Z" 0 (by decide) (by decide)⟩

/-- When the two calls run in turn the second one signs with the counter and
the signature the first one left, and the counter ends at 2. -/
theorem calls_in_turn_advance_the_counter :
    sample.outcomeOf sample.scheduleInTurn =
      some ([some (HTTPResponse.Response 200
                (Data.signed { Signature := "AwcIYQA=", SignedData := "0_a_WA==" })),
             some (HTTPResponse.Response 200
                (Data.signed { Signature := "AwcM3QA=", SignedData := "1_b_AwcIYQA=" }))],
            2) := by
  decide

/-- When call 1 enters Lock while call 0 holds the device mutex, call 1 waits
inside Lock with `mu` read-locked, call 0 then waits inside Set for `mu`, and
neither call can take a step any more. -/
theorem waiting_inside_Lock_stalls_Set :
    sample.waiting = some [(true, false, false), (false, true, false)] := by
  decide

/-- With three overlapping calls a successful sign lowers the stored counter:
call 2 reads device X first, calls 0 and 1 then sign in turn and leave the
counter at 2, and call 2 then signs from its copy and leaves the counter
at 1. -/
theorem stale_sign_lowers_the_counter :
    (sample.outcomeOf3 sample.scheduleTwoDone).map (fun o => o.2) = some 2 ∧
    sample.outcomeOf3 sample.scheduleThreeDone =
      some ([some (HTTPResponse.Response 200
                (Data.signed { Signature := "AwcIYQA=", SignedData := "0_a_WA==" })),
             some (HTTPResponse.Response 200
                (Data.signed { Signature := "AwcM3QA=", SignedData := "1_b_AwcIYQA=" })),
             some (HTTPResponse.Response 200
                (Data.signed { Signature := "AwcIYwA=", SignedData := "0_c_WA==" }))],
            1) := by
  decide

/-- C5, the claim fails on the code.  Two calls of SignTransaction on the new
device X run under the schedule `sample.schedule`, in which both read the
device before either takes its mutex.  Both calls succeed, both payloads carry
the counter 0, and the stored counter ends at 1 although two signs succeeded. -/
theorem overlapping_signs_reuse_the_counter :
    sample.outcome =
      some ([some (HTTPResponse.Response 200
                (Data.signed { Signature := "AwcIYQA=", SignedData := "0_a_WA==" })),
             some (HTTPResponse.Response 200
                (Data.signed { Signature := "AwcIYgA=", SignedData := "0_b_WA==" }))],
            1) := by
  decide

/-- C10, the claim fails on the code.  The registries `sample.registry1` and
`sample.registryOtherKey` differ only in the private key of device X.  The get
handler answers the same on both, with the id and the label only; the list
handler hands the whole records to the response writer, private key included,
and so answers differently. -/
theorem ListSignatureDevice_exposes_the_private_key :
    sample.registryOtherKey =
      { sample.registry1 with storage :=
          sample.registry1.storage.insert "X" { sample.deviceX with PrivateKey := [9, 9] } } ∧
    sample.registry1.Get "X" = Except.ok sample.deviceX ∧
    GetSignatureDevice sample.registry1 "X" = GetSignatureDevice sample.registryOtherKey "X" ∧
    ListSignatureDevice sample.registry1 =
      HTTPResponse.Response 200 (Data.devices (GoSlice.mk [sample.deviceX])) ∧
    ListSignatureDevice sample.registryOtherKey =
      HTTPResponse.Response 200
        (Data.devices (GoSlice.mk [{ sample.deviceX with PrivateKey := [9, 9] }])) ∧
    ListSignatureDevice sample.registry1 ≠ ListSignatureDevice sample.registryOtherKey := by
  decide

end api

namespace persistence

namespace InMemoryStore

/-- C6 at the test input: Store("some id", 1) on a new store succeeds, and a
second Store("some id", 1) returns ErrItemExists and changes nothing. -/
theorem Store_spec_witness :
    ((NewInMemoryStore : InMemoryStore Nat).Store "some id" 1).1 = none ∧
    "some id" ∈ sample.store1.storage ∧
    (sample.store1.Store "some id" 1).1 = some GoError.ErrItemExists ∧
    (sample.store1.Store "some id" 1).2 = sample.store1 :=
  ⟨((Store_spec NewInMemoryStore "some id" 1).2.2 (by decide)).1,
    by decide,
    (Store_spec sample.store1 "some id" 1).1.mpr (by decide),
    (Store_spec sample.store1 "some id" 1).2.1 (by decide)⟩

/-- C8 at the test input: a new store lists no item; after Store("some id", 1)
and Store("some other id", 2) the list has two elements, among them 1 and 2. -/
theorem List_spec_witness :
    (NewInMemoryStore : InMemoryStore Nat).List.1 = GoSlice.mk [] ∧
    sample.store2.List.1.toList.length = 2 ∧
    1 ∈ sample.store2.List.1.toList ∧ 2 ∈ sample.store2.List.1.toList :=
  ⟨(List_spec NewInMemoryStore).2.2.1 (by decide),
    ((List_spec sample.store2).2.2.2.2 _ (List.Perm.refl _)).1.trans (by decide),
    ((List_spec sample.store2).2.2.2.2 _ (List.Perm.refl _)).2.1 "some id" 1 (by decide),
    ((List_spec sample.store2).2.2.2.2 _ (List.Perm.refl _)).2.1 "some other id" 2
      (by decide)⟩

end InMemoryStore

end persistence
